import Mathlib

/-!
# Verification of the zippy ZIP library core

A shallow embedding, in Lean 4, of the core of the `zippy` library
(package `zippy`, modules `zippy/zipfile/zipfile.py`,
`zippy/zipfile/_zipfile.py`, `zippy/zipfile/_zip_algorythms.py`,
`zippy/zipfile/utils/ZipEncrypt.py`).

Conventions of the embedding:
* Python `bytes` values are `List Nat`, each element in `0..255`.
* Python `str` values that act as archive keys or filenames are Lean
  `String`; Python strings compare lexicographically by code point,
  which agrees with the `String` linear order used here.
* Machine integers are `Nat` with explicit `% 2 ^ 32` where the source
  masks with `& 4294967295`.
* Python `int.to_bytes(w, byteorder)` is modelled by `toBytesLE`,
  which truncates to `w` bytes (CPython raises `OverflowError` when the
  value does not fit; every use proved about below is in range).
* Exceptions are an explicit `PyErr` error type threaded via `Except`.
* External collaborators (compression codecs, the wall clock, the
  platform probe, the random generator for the encryption header, the
  filesystem) are parameters of the embedded functions.
-/

namespace Zippy

/-- Python `bytes`: a list of byte values. -/
abbrev Bytes := List Nat

/-- `0xFFFFFFFF`, the `INT32_MAX` constant of `zippy/zipfile/zipfile.py`. -/
def INT32_MAX : Nat := 4294967295

/-- `n.to_bytes(w, 'little')`: little-endian byte encoding, truncating to
`w` bytes (the source only calls it with in-range values). -/
def toBytesLE : Nat → Nat → Bytes
  | 0, _ => []
  | w + 1, n => n % 256 :: toBytesLE w (n / 256)

/-- `int.from_bytes(bs, 'little')`. `int.from_bytes(b'') = 0`. -/
def fromBytesLE : Bytes → Nat
  | [] => 0
  | b :: rest => b + 256 * fromBytesLE rest

theorem toBytesLE_length (w n : Nat) : (toBytesLE w n).length = w := by
  induction w generalizing n with
  | zero => rfl
  | succ w ih => simp [toBytesLE, ih]

/-- The 16 bits of one byte, least significant first.  This is the order
produced by `format(bit, '0>8b')[::-1]` in `FileRaw.__init_raw__`. -/
def byteToBits (b : Nat) : List Bool :=
  (List.range 8).map fun i => b.testBit i

/-- The value of an LSB-first bit string, as computed by
`int(self.bit_flag[::-1], 2)` in `FileRaw.encode`. -/
def bitsVal : List Bool → Nat
  | [] => 0
  | b :: rest => (if b then 1 else 0) + 2 * bitsVal rest

/-! ## CRC-32 (`zlib.crc32`, polynomial 0xEDB88320)

`zlib.crc32` is the table-driven reflected CRC-32.  The table entry for
index `i` runs eight steps of "shift right, xor the polynomial when the
low bit was set"; this is also exactly what
`ZipDecrypter.generate_crc_table` computes. -/

/-- One bit step of the CRC-32 table computation. -/
def crcBitStep (c : Nat) : Nat :=
  if c % 2 = 1 then ((c / 2) &&& 0x7FFFFFFF) ^^^ 0xEDB88320
  else (c / 2) &&& 0x7FFFFFFF

/-- Entry `i` of the 256-entry CRC-32 table. -/
def crcTableEntry (i : Nat) : Nat :=
  crcBitStep (crcBitStep (crcBitStep (crcBitStep
    (crcBitStep (crcBitStep (crcBitStep (crcBitStep i)))))))

/-- One byte step of `zlib.crc32`. -/
def crcByteStep (c b : Nat) : Nat :=
  (c >>> 8) ^^^ crcTableEntry ((c ^^^ b) % 256)

/-- `zlib.crc32(data)`:  initial value `0xFFFFFFFF`, final complement. -/
def crc32 (data : Bytes) : Nat :=
  (data.foldl crcByteStep 0xFFFFFFFF) ^^^ 0xFFFFFFFF

/-! ## ZipCrypto (`zippy/zipfile/utils/ZipEncrypt.py`)

`ZipDecrypter.crc32` computes
`((crc >> 8) & 0xffffff) ^ self.crctable[(crc ^ ch) & 0xff]` over the
same table as above. -/

/-- The per-byte CRC primitive of `ZipDecrypter.crc32`. -/
def zcCrc32 (ch crc : Nat) : Nat :=
  ((crc >>> 8) &&& 0xffffff) ^^^ crcTableEntry ((crc ^^^ ch) % 256)

/-- The three 32-bit keys of the traditional PKWARE cipher. -/
structure ZCKeys where
  key0 : Nat
  key1 : Nat
  key2 : Nat
  deriving DecidableEq

/-- `ZipDecrypter.update_keys`. -/
def updateKeys (s : ZCKeys) (c : Nat) : ZCKeys :=
  let key0 := zcCrc32 c s.key0
  let key1a := (s.key1 + (key0 &&& 255)) &&& 4294967295
  let key1 := (key1a * 134775813 + 1) &&& 4294967295
  let key2 := zcCrc32 ((key1 >>> 24) &&& 255) s.key2
  ⟨key0, key1, key2⟩

/-- `ZipDecrypter.__init__`: feed each password character (by code
point, `ord(p)`) into the keys starting from the three constants. -/
def keysFromPwd (pwd : List Nat) : ZCKeys :=
  pwd.foldl updateKeys ⟨305419896, 591751049, 878082192⟩

/-- The keystream byte derived from `key2`:
`k = key2 | 2; ((k * (k ^ 1)) >> 8) & 255`. -/
def keystreamByte (s : ZCKeys) : Nat :=
  let k := s.key2 ||| 2
  ((k * (k ^^^ 1)) >>> 8) &&& 255

/-- `ZipDecrypter.__call__`: decrypt one byte, update keys with the
decrypted (plaintext) byte. -/
def decryptByte (s : ZCKeys) (c : Nat) : Nat × ZCKeys :=
  let p := c ^^^ keystreamByte s
  (p, updateKeys s p)

/-- `ZipEncrypter.__call__`: encrypt one byte, update keys with the
original (plaintext) byte. -/
def encryptByte (s : ZCKeys) (c : Nat) : Nat × ZCKeys :=
  let x := c ^^^ keystreamByte s
  (x, updateKeys s c)

/-- `list(map(zd, contents))` for a `ZipDecrypter` `zd`: decrypt a byte
stream, threading the key state. -/
def decryptStream (s : ZCKeys) : Bytes → Bytes
  | [] => []
  | c :: rest =>
      let r := decryptByte s c
      r.1 :: decryptStream r.2 rest

/-- `list(map(ze, contents))` for a `ZipEncrypter` `ze`. -/
def encryptStream (s : ZCKeys) : Bytes → Bytes
  | [] => []
  | c :: rest =>
      let r := encryptByte s c
      r.1 :: encryptStream r.2 rest

theorem decryptStream_length (s : ZCKeys) (l : Bytes) :
    (decryptStream s l).length = l.length := by
  induction l generalizing s with
  | nil => rfl
  | cons c rest ih => simp [decryptStream, ih]

theorem encryptStream_length (s : ZCKeys) (l : Bytes) :
    (encryptStream s l).length = l.length := by
  induction l generalizing s with
  | nil => rfl
  | cons c rest ih => simp [encryptStream, ih]

theorem decryptByte_encryptByte (s : ZCKeys) (c : Nat) :
    decryptByte s (encryptByte s c).1 = (c, (encryptByte s c).2) := by
  simp [decryptByte, encryptByte, Nat.xor_assoc]

/-- Stream-level inverse on an arbitrary common key state. -/
theorem decryptStream_encryptStream (s : ZCKeys) (l : Bytes) :
    decryptStream s (encryptStream s l) = l := by
  induction l generalizing s with
  | nil => rfl
  | cons c rest ih =>
      simp only [encryptStream, decryptStream]
      rw [decryptByte_encryptByte]
      simp [ih]

/-- C7.  For every password `p` and byte sequence `x`, encrypting `x`
byte by byte with a `ZipEncrypter` keyed on `p` and then decrypting the
result byte by byte with a fresh `ZipDecrypter` keyed on `p` yields
`x`. -/
theorem zipcrypto_roundtrip (pwd : List Nat) (x : Bytes) :
    decryptStream (keysFromPwd pwd) (encryptStream (keysFromPwd pwd) x) = x :=
  decryptStream_encryptStream (keysFromPwd pwd) x

/-! ## Exceptions (`zippy/zipfile/exceptions.py` and Python built-ins)

Messages are carried verbatim where the source raises with a fixed
string; exceptions raised with interpolated (dynamic) messages are
modelled without a message. -/

/-- The exceptions the embedded code can raise. -/
inductive PyErr where
  | badFile (msg : String)
  | reservedValue (msg : String)
  | deprecated (msg : String)
  | notImplementedError (msg : String)
  | wrongPassword (msg : String)
  | valueError
  | typeError
  | fileNotFound
  | indexError
  | unicodeDecodeError
  deriving DecidableEq, Repr

deriving instance DecidableEq for Except

/-! ## Decryption dispatch (`_zip_algorythms.decrypt`)

`decrypt(bit_flag, v, crc, pwd, contents)`:  `bit_flag` is the 16-bit
LSB-first flag string of the entry (here a `List Bool`), `v` the
version needed to extract, `crc` the CRC-32 from the local file header,
`pwd` the password (code points; `None` is the empty list, which Python
also treats as falsy). -/

/-- `zippy/zipfile/_zip_algorythms.py`, `decrypt`. -/
def decrypt (bit_flag : List Bool) (v : Nat) (crc : Nat) (pwd : List Nat)
    (contents : Bytes) : Except PyErr (String × Bytes) :=
  match bit_flag.get? 0 with
  | none => .error .indexError
  | some flag0 =>
    if flag0 = false then .ok ("Unencrypted", contents)
    else if pwd = [] then
      .error (.wrongPassword "Zip file requires password to be unpacked.")
    else if ¬ v ≥ 20 then .error (.badFile "Incorrect version specified.")
    else
      let decrypted_content := decryptStream (keysFromPwd pwd) contents
      let decryption_header := decrypted_content.take 12
      match decryption_header.getLast? with
      | none => .error .indexError
      | some checkByte =>
        if checkByte ≠ (toBytesLE 4 crc).getLastD 0 then
          .error (.wrongPassword "Given password is incorrect.")
        else .ok ("ZipCrypto", decrypted_content.drop 12)

/-! ## Compression dispatch (`_zip_algorythms.decompress` / `compress`)

The compression primitives themselves are external collaborators; they
enter the embedding as the fields of `Codecs`.  (`deflate_decompress`
also receives the expected uncompressed size.) -/

/-- External compression codecs, as called by the dispatcher. -/
structure Codecs where
  deflateDecompress : Bytes → Nat → Bytes
  explodeDecompress : Bytes → Bytes
  bz2Decompress : Bytes → Bytes
  lz77Decompress : Bytes → Bytes
  zstdDecompress : Bytes → Bytes
  xzDecompress : Bytes → Bytes
  deflateCompress : Bytes → Nat → Bytes
  bz2Compress : Bytes → Bytes

/-- A trivial codec instantiation (used only to evaluate the dispatcher
on branches that never reach a codec). -/
def trivCodecs : Codecs :=
  ⟨fun b _ => b, id, id, id, id, id, fun b _ => b, id⟩

/-- `zippy/zipfile/_zip_algorythms.py`, `decompress`.  The branch
structure mirrors the source `if/elif` chain exactly; any method id
that reaches the final `else` raises
`BadFile('Unknown file compression method.')`. -/
def decompress (cx : Codecs) (compression_method : Nat)
    (uncompressed_size : Nat) (contents : Bytes) :
    Except PyErr (String × Bytes) :=
  if compression_method = 0 then .ok ("Stored", contents)
  else if 1 ≤ compression_method ∧ compression_method < 6 then
    .error (.notImplementedError "Shrinking and Reducing are not implemented yet.")
  else if compression_method = 6 then
    .error (.deprecated "Legacy Implode is no longer supported. Use PKWARE Data Compression Library Imploding instead.")
  else if compression_method = 7 then
    .error (.deprecated "Tokenizing is not used by PKZIP.")
  else if compression_method = 8 then
    .ok ("Deflate", cx.deflateDecompress contents uncompressed_size)
  else if compression_method = 9 then
    .ok ("Deflate64", cx.deflateDecompress contents uncompressed_size)
  else if compression_method = 10 then
    .ok ("PKWARE Data Compression Library Imploding", cx.explodeDecompress contents)
  else if compression_method = 11 then
    .error (.reservedValue "Compression method 11 is reserved.")
  else if compression_method = 12 then
    .ok ("BZIP2", cx.bz2Decompress contents)
  else if compression_method = 13 then
    .error (.reservedValue "Compression method 13 is reserved.")
  else if compression_method = 14 then
    .error (.notImplementedError "LZMA compression is not implemented yet.")
  else if compression_method = 19 then
    .ok ("LZ77", cx.lz77Decompress contents)
  else if compression_method = 93 then
    .ok ("Zstandart", cx.zstdDecompress contents)
  else if compression_method = 95 then
    .ok ("XZ", cx.xzDecompress contents)
  else .error (.badFile "Unknown file compression method.")

theorem getLast?_take_twelve (l : Bytes) (h : 12 ≤ l.length) :
    (l.take 12).getLast? = some (l.getD 11 0) := by
  have h11 : 11 < l.length := by omega
  have h12 : (l.take 12).length = 12 := by
    simp [List.length_take]; omega
  rw [List.getLast?_eq_getElem?, h12]
  norm_num
  simp [List.getD_eq_getElem?_getD, List.getElem?_eq_getElem h11]

theorem toBytesLE_four_getLastD (crc : Nat) :
    (toBytesLE 4 crc).getLastD 0 = crc / 2 ^ 24 % 256 := by
  simp only [toBytesLE, List.getLastD]
  simp [List.getLast, Nat.div_div_eq_div_mul]

/-- C2.  For an encrypted entry (flag bit 0 set), a non-empty password
and `version_needed >= 20`, `decrypt` decrypts the 12-byte header and
raises `WrongPassword` exactly when the 12th decrypted byte (index 11)
differs from the most significant byte of the CRC-32 from the local
file header; otherwise it returns the decrypted bytes that follow the
12-byte header. -/
theorem decrypt_checks_twelfth_byte (bit_flag : List Bool) (v crc : Nat)
    (pwd : List Nat) (contents : Bytes)
    (hflag : bit_flag.get? 0 = some true) (hpwd : pwd ≠ []) (hv : 20 ≤ v)
    (hlen : 12 ≤ contents.length) :
    (decrypt bit_flag v crc pwd contents =
        .error (.wrongPassword "Given password is incorrect.") ↔
      (decryptStream (keysFromPwd pwd) contents).getD 11 0 ≠
        crc / 2 ^ 24 % 256) ∧
    ((decryptStream (keysFromPwd pwd) contents).getD 11 0 =
        crc / 2 ^ 24 % 256 →
      decrypt bit_flag v crc pwd contents =
        .ok ("ZipCrypto", (decryptStream (keysFromPwd pwd) contents).drop 12)) := by
  have hdlen : 12 ≤ (decryptStream (keysFromPwd pwd) contents).length := by
    rw [decryptStream_length]; exact hlen
  unfold decrypt
  rw [hflag]
  simp only [if_neg (by simp : ¬(true = false)), if_neg hpwd,
    if_neg (by omega : ¬¬v ≥ 20)]
  rw [getLast?_take_twelve _ hdlen, toBytesLE_four_getLastD]
  constructor
  · constructor
    · intro h hcontra
      split at h
      next heqn => simp at heqn
      next cb heqs =>
        injection heqs with hcb
        subst hcb
        rw [if_neg (fun hne => hne hcontra)] at h
        simp at h
    · intro hne
      split
      next heqn => simp at heqn
      next cb heqs =>
        injection heqs with hcb
        subst hcb
        rw [if_pos hne]
  · intro heq
    split
    next heqn => simp at heqn
    next cb heqs =>
      injection heqs with hcb
      subst hcb
      rw [if_neg (fun hne => hne heq)]

/-- Witness for C2: password `'a'`, an encrypted entry of 12 zero
bytes, expected CRC-32 `0`.  The 12th decrypted header byte is `148`,
so `decrypt` rejects the password. -/
theorem decrypt_checks_twelfth_byte_witness :
    decrypt [true] 20 0 [97] (List.replicate 12 0) =
      .error (.wrongPassword "Given password is incorrect.") :=
  (decrypt_checks_twelfth_byte [true] 20 0 [97] (List.replicate 12 0) rfl
    (by decide) (by norm_num) (by norm_num)).1.mpr (by decide)

/-- Evaluator used by the C3 counterexample: whether a dispatcher
result is a `ReservedValue` failure. -/
def isReservedErr : Except PyErr (String × Bytes) → Bool
  | .error (.reservedValue _) => true
  | _ => false

/-- Evaluator used by the C3 counterexample: whether a dispatcher
result is a `Deprecated` failure. -/
def isDeprecatedErr : Except PyErr (String × Bytes) → Bool
  | .error (.deprecated _) => true
  | _ => false

/-- C3 counterexample.  The claim says ids 15 and 17 fail with
`ReservedValue` and id 20 fails with `Deprecated`; in the code all
three reach the final `else` and fail with
`BadFile('Unknown file compression method.')`. -/
theorem decompress_reserved_deprecated_counterexample :
    isReservedErr (decompress trivCodecs 15 0 []) = false ∧
    isReservedErr (decompress trivCodecs 17 0 []) = false ∧
    isDeprecatedErr (decompress trivCodecs 20 0 []) = false ∧
    decompress trivCodecs 15 0 [] =
      .error (.badFile "Unknown file compression method.") ∧
    decompress trivCodecs 17 0 [] =
      .error (.badFile "Unknown file compression method.") ∧
    decompress trivCodecs 20 0 [] =
      .error (.badFile "Unknown file compression method.") := by
  refine ⟨rfl, rfl, rfl, rfl, rfl, rfl⟩

/-- C3 (amended).  Ids 11 and 13 fail with `ReservedValue`; ids 6 and 7
fail with `Deprecated`; ids 15, 17, 20 and every other id ≥ 15 that is
not one of the supported methods 19, 93, 95 falls to the catch-all
`BadFile('Unknown file compression method.')`. -/
theorem decompress_dispatch_errors (cx : Codecs) (u : Nat) (c : Bytes) :
    decompress cx 11 u c =
      .error (.reservedValue "Compression method 11 is reserved.") ∧
    decompress cx 13 u c =
      .error (.reservedValue "Compression method 13 is reserved.") ∧
    decompress cx 6 u c =
      .error (.deprecated "Legacy Implode is no longer supported. Use PKWARE Data Compression Library Imploding instead.") ∧
    decompress cx 7 u c =
      .error (.deprecated "Tokenizing is not used by PKZIP.") ∧
    (∀ m, 15 ≤ m → m ≠ 19 → m ≠ 93 → m ≠ 95 →
      decompress cx m u c =
        .error (.badFile "Unknown file compression method.")) := by
  refine ⟨rfl, rfl, rfl, rfl, ?_⟩
  intro m h15 h19 h93 h95
  unfold decompress
  rw [if_neg (by omega : ¬m = 0), if_neg (by omega : ¬(1 ≤ m ∧ m < 6)),
    if_neg (by omega : ¬m = 6), if_neg (by omega : ¬m = 7),
    if_neg (by omega : ¬m = 8), if_neg (by omega : ¬m = 9),
    if_neg (by omega : ¬m = 10), if_neg (by omega : ¬m = 11),
    if_neg (by omega : ¬m = 12), if_neg (by omega : ¬m = 13),
    if_neg (by omega : ¬m = 14), if_neg h19, if_neg h93, if_neg h95]

/-- Witness for C3: the quantified catch-all clause applied at the
concrete id 20. -/
theorem decompress_dispatch_errors_witness :
    decompress trivCodecs 20 0 [] =
      .error (.badFile "Unknown file compression method.") :=
  (decompress_dispatch_errors trivCodecs 0 []).2.2.2.2 20 (by norm_num)
    (by norm_num) (by norm_num) (by norm_num)

/-- Compression levels (`zippy/compressions.py`). -/
inductive Level where
  | fast
  | normal
  | maximum
  deriving DecidableEq

/-- `zippy/zipfile/_zip_algorythms.py`, `compress`.  With a typed level
the `ValueError` branch for an unknown level label is unreachable.
Note the source calls the *decompress* primitive for methods 93 and 95;
the embedding keeps that behaviour. -/
def compress (cx : Codecs) (method : Nat) (level : Level) (contents : Bytes) :
    Bytes :=
  if method = 8 ∨ method = 9 then
    let numLevel : Nat := match level with
      | .fast => 3
      | .normal => 6
      | .maximum => 12
    cx.deflateCompress contents numLevel
  else if method = 12 then cx.bz2Compress contents
  else if method = 93 then cx.zstdDecompress contents
  else if method = 95 then cx.xzDecompress contents
  else contents

/-! ## Text codec

Filenames and comments are Python `str`; the wire carries their encoded
bytes.  The embedding models the default `'utf-8'` codec (the only one
the claims exercise); the encoding name is still carried around the way
the source does. -/

/-- UTF-8 encoding of one code point. -/
def utf8EncodeCp (c : Nat) : Bytes :=
  if c < 0x80 then [c]
  else if c < 0x800 then [0xC0 ||| (c >>> 6), 0x80 ||| (c &&& 0x3F)]
  else if c < 0x10000 then
    [0xE0 ||| (c >>> 12), 0x80 ||| ((c >>> 6) &&& 0x3F), 0x80 ||| (c &&& 0x3F)]
  else
    [0xF0 ||| (c >>> 18), 0x80 ||| ((c >>> 12) &&& 0x3F),
      0x80 ||| ((c >>> 6) &&& 0x3F), 0x80 ||| (c &&& 0x3F)]

/-- `s.encode('utf-8')`. -/
def utf8Encode (s : String) : Bytes :=
  s.data.flatMap fun ch => utf8EncodeCp ch.toNat

/-- Strict UTF-8 decoding to code points (CPython `bytes.decode('utf-8')`:
overlong forms, surrogates and values above `0x10FFFF` are rejected). -/
def utf8DecodeCps : Bytes → Option (List Nat)
  | [] => some []
  | b :: rest =>
    if b < 0x80 then (utf8DecodeCps rest).map (b :: ·)
    else if b < 0xC2 then none
    else if b < 0xE0 then
      match rest with
      | c1 :: r =>
        if 0x80 ≤ c1 ∧ c1 < 0xC0 then
          (utf8DecodeCps r).map (((b - 0xC0) * 64 + (c1 - 0x80)) :: ·)
        else none
      | _ => none
    else if b < 0xF0 then
      match rest with
      | c1 :: c2 :: r =>
        if (if b = 0xE0 then 0xA0 else 0x80) ≤ c1 ∧
            c1 < (if b = 0xED then 0xA0 else 0xC0) ∧
            0x80 ≤ c2 ∧ c2 < 0xC0 then
          (utf8DecodeCps r).map
            (((b - 0xE0) * 4096 + (c1 - 0x80) * 64 + (c2 - 0x80)) :: ·)
        else none
      | _ => none
    else if b < 0xF5 then
      match rest with
      | c1 :: c2 :: c3 :: r =>
        if (if b = 0xF0 then 0x90 else 0x80) ≤ c1 ∧
            c1 < (if b = 0xF4 then 0x90 else 0xC0) ∧
            0x80 ≤ c2 ∧ c2 < 0xC0 ∧ 0x80 ≤ c3 ∧ c3 < 0xC0 then
          (utf8DecodeCps r).map
            (((b - 0xF0) * 262144 + (c1 - 0x80) * 4096 +
              (c2 - 0x80) * 64 + (c3 - 0x80)) :: ·)
        else none
      | _ => none
    else none

/-- Whether `data.decode('utf-8')` succeeds. -/
def validUtf8 (l : Bytes) : Bool :=
  (utf8DecodeCps l).isSome

/-- `bytes.decode(encoding)`, modelled as the UTF-8 codec. -/
def decodeText (_encoding : String) (l : Bytes) : Option String :=
  (utf8DecodeCps l).map fun cps => String.mk (cps.map Char.ofNat)

/-- `str.encode(encoding)`, modelled as the UTF-8 codec. -/
def encodeText (_encoding : String) (s : String) : Bytes :=
  utf8Encode s

/-! ## Record structures (`zippy/zipfile/_zipfile.py`)

`FileRaw`, `CDHeader` and `CDEnd`, with the field names of the source.
`bit_flag` is the 16-character LSB-first flag string as a `List Bool`.
None of the `encode` methods emits the 4-byte `PK` signature. -/

/-- `zippy/zipfile/_zipfile.py`, `FileRaw` (local file header plus
payload). -/
structure FileRaw where
  version_needed_to_exctract : Nat
  bit_flag : List Bool
  compression_method : Nat
  last_mod_time : Bytes
  last_mod_date : Bytes
  crc : Nat
  compressed_size : Nat
  uncompressed_size : Nat
  filename_length : Nat
  extra_field_length : Nat
  filename : String
  extra_field : Bytes
  contents : Bytes
  deriving DecidableEq, Repr

/-- `FileRaw.encode`: the serialized local file header followed by the
payload.  No `PK\x03\x04` signature is produced. -/
def FileRaw.encode (f : FileRaw) (encoding : String) : Bytes :=
  toBytesLE 2 f.version_needed_to_exctract ++
  toBytesLE 2 (bitsVal f.bit_flag) ++
  toBytesLE 2 f.compression_method ++
  f.last_mod_time ++
  f.last_mod_date ++
  toBytesLE 4 f.crc ++
  toBytesLE 4 f.compressed_size ++
  toBytesLE 4 f.uncompressed_size ++
  toBytesLE 2 f.filename_length ++
  toBytesLE 2 f.extra_field_length ++
  encodeText encoding f.filename ++
  f.extra_field ++
  f.contents

/-- `zippy/zipfile/_zipfile.py`, `CDHeader`. -/
structure CDHeader where
  version_made_by : Nat
  platform : Nat
  version_needed_to_exctract : Nat
  bit_flag : List Bool
  compression_method : Nat
  last_mod_time : Bytes
  last_mod_date : Bytes
  crc : Nat
  compressed_size : Nat
  uncompressed_size : Nat
  filename_length : Nat
  extra_field_length : Nat
  comment_length : Nat
  disk_number_start : Nat
  internal_file_attrs : Bytes
  external_file_attrs : Bytes
  local_header_relative_offset : Nat
  filename : String
  extra_field : Bytes
  comment : String
  deriving DecidableEq, Repr

/-- `CDHeader.encode`.  No `PK\x01\x02` signature is produced. -/
def CDHeader.encode (h : CDHeader) (encoding : String) : Bytes :=
  toBytesLE 1 h.version_made_by ++
  toBytesLE 1 h.platform ++
  toBytesLE 2 h.version_needed_to_exctract ++
  toBytesLE 2 (bitsVal h.bit_flag) ++
  toBytesLE 2 h.compression_method ++
  h.last_mod_time ++
  h.last_mod_date ++
  toBytesLE 4 h.crc ++
  toBytesLE 4 h.compressed_size ++
  toBytesLE 4 h.uncompressed_size ++
  toBytesLE 2 h.filename_length ++
  toBytesLE 2 h.extra_field_length ++
  toBytesLE 2 h.comment_length ++
  toBytesLE 2 h.disk_number_start ++
  h.internal_file_attrs ++
  h.external_file_attrs ++
  toBytesLE 4 h.local_header_relative_offset ++
  encodeText encoding h.filename ++
  h.extra_field ++
  encodeText encoding h.comment

/-- `zippy/zipfile/_zipfile.py`, `CDEnd` (end of central directory). -/
structure CDEnd where
  disk_num : Nat
  disk_num_CD : Nat
  total_entries : Nat
  total_CD_entries : Nat
  sizeof_CD : Nat
  offset : Nat
  comment_length : Nat
  comment : String
  deriving DecidableEq, Repr

/-- `CDEnd.encode`.  No `PK\x05\x06` signature is produced. -/
def CDEnd.encode (e : CDEnd) (encoding : String) : Bytes :=
  toBytesLE 2 e.disk_num ++
  toBytesLE 2 e.disk_num_CD ++
  toBytesLE 2 e.total_entries ++
  toBytesLE 2 e.total_CD_entries ++
  toBytesLE 4 e.sizeof_CD ++
  toBytesLE 4 e.offset ++
  toBytesLE 2 e.comment_length ++
  encodeText encoding e.comment

/-! ## Editable archive model (`zippy/zipfile/zipfile.py`, `NewZipFile`)

`create_file` / `add_file` stage one `(FileRaw, CDHeader)` pair per
path in a pair of dictionaries, re-sorted by key after each insertion.
External inputs (the wall clock for `datetime.now()`, the `system()`
platform probe, the random bytes of the encryption header, filesystem
data and `stat` results for `add_file`) are parameters. -/

/-- Compression labels (`zippy/constants.py`).  Using an enum keeps the
labels mutually exclusive, as the string constants are. -/
inductive Compression where
  | stored
  | deflate
  | deflate64
  | pkwareImploding
  | bzip2
  | lz77
  | zstandart
  | xz
  deriving DecidableEq

/-- `ZIP_COMPRESSION_FROM_STR`. -/
def Compression.methodId : Compression → Nat
  | .stored => 0
  | .deflate => 8
  | .deflate64 => 9
  | .pkwareImploding => 10
  | .bzip2 => 12
  | .lz77 => 19
  | .zstandart => 93
  | .xz => 95

/-- Encryption labels (`zippy/constants.py`). -/
inductive Encryption where
  | unencrypted
  | zipCrypto
  deriving DecidableEq

/-- The result of `platform.system()` (other values raise
`NotImplementedError` in the source and are not modelled). -/
inductive Platform where
  | windows
  | linux
  | darwin
  deriving DecidableEq

/-- The host byte of `version_made_by` chosen per platform in
`create_file`. -/
def Platform.code : Platform → Nat
  | .windows => 0
  | .linux => 3
  | .darwin => 19

/-- External inputs of `create_file`: the wall clock
(`datetime.now()`, as a broken-down timestamp), the platform probe, and
the 11 random bytes of the ZipCrypto header. -/
structure Env where
  year : Nat
  month : Nat
  day : Nat
  hour : Nat
  minute : Nat
  second : Nat
  platform : Platform
  rand11 : Bytes

/-- The packed 32-bit DOS timestamp of `create_file`
(`(year - 1980) << 25 | month << 21 | day << 16 | hour << 11 |
minute << 5 | second >> 1`). -/
def Env.dosTime (e : Env) : Nat :=
  ((e.year - 1980) <<< 25) ||| (e.month <<< 21) ||| (e.day <<< 16) |||
    (e.hour <<< 11) ||| (e.minute <<< 5) ||| (e.second >>> 1)

/-- Modelled from the spec: the function `encrypt` that
`zippy/zipfile/zipfile.py` imports from `._zip_algorythms` is absent
from the source tree.  Per spec §4.4, encryption prepends 11 random
bytes and a 12th check byte equal to the high byte of the entry CRC-32,
then encrypts the whole stream with a `ZipEncrypter` keyed on the
password. -/
def encryptData (rand11 : Bytes) (pwd : List Nat) (crc : Nat)
    (data : Bytes) : Bytes :=
  encryptStream (keysFromPwd pwd)
    (rand11 ++ [(toBytesLE 4 crc).getLastD 0] ++ data)

/-- The `version_needed_to_extract` computation of `create_file`
(`zipfile.py` lines 108-119): a chain of `if` statements overwriting
`v`, in the order 20, 21, 25, 45, 46. -/
def versionNeeded (compression : Compression) (fpIsRoot : Bool)
    (encryption : Encryption) (uncompressed_size : Nat) : Nat :=
  let v : Nat := 10
  let v := if compression = .deflate ∨ fpIsRoot = false ∨
      encryption = .zipCrypto then 20 else v
  let v := if compression = .deflate64 then 21 else v
  let v := if compression = .pkwareImploding then 25 else v
  let v := if uncompressed_size ≥ INT32_MAX then 45 else v
  let v := if compression = .bzip2 then 46 else v
  v

/-- The code points of `ILLEGAL_CHARS` (`zipfile.py` lines 17-22):
hash, percent, ampersand, both curly braces, both angle brackets,
asterisk, question mark, dollar, exclamation mark, both quote
characters, colon, at sign, plus, backquote, vertical bar, equals. -/
def ILLEGAL_CHARS : List Nat :=
  [35, 37, 38, 123, 125, 60, 62, 42, 63, 36, 33, 39, 34, 58, 64, 43,
    96, 124, 61]

/-- Whether a string contains one of `ILLEGAL_CHARS`. -/
def hasIllegalChar (s : String) : Bool :=
  s.data.any fun c => ILLEGAL_CHARS.contains c.toNat

/-! ### Python string primitives

Character-list implementations of the Python `str` operations the
editable model uses (Lean core's `String.replace`, `splitOn`,
`startsWith` and the `String` order are compiled primitives that the
kernel cannot evaluate, so the embedding defines its own).  Python
compares strings lexicographically by code point. -/

/-- Lexicographic `<=` on character lists (Python string comparison). -/
def charListLE : List Char → List Char → Bool
  | [], _ => true
  | _ :: _, [] => false
  | c :: cs, d :: ds =>
    if c < d then true else if d < c then false else charListLE cs ds

/-- Lexicographic `<` on character lists. -/
def charListLT : List Char → List Char → Bool
  | [], [] => false
  | [], _ :: _ => true
  | _ :: _, [] => false
  | c :: cs, d :: ds =>
    if c < d then true else if d < c then false else charListLT cs ds

/-- Python `a <= b` on strings. -/
def strLE (a b : String) : Bool :=
  charListLE a.data b.data

/-- Python `a < b` on strings. -/
def strLT (a b : String) : Bool :=
  charListLT a.data b.data

/-- Python `s.startswith(pre)`. -/
def pyStartsWith (s pre : String) : Bool :=
  List.isPrefixOf pre.data s.data

/-- Python `str.replace(pat, rep)` for one-character `pat` and `rep`
(every `replace` call in the source swaps the forward slash and the
backslash). -/
def replaceChar (pat rep : Char) : List Char → List Char
  | [] => []
  | c :: rest => (if c = pat then rep else c) :: replaceChar pat rep rest

/-- Python `s.replace(pat, rep)`, one-character arguments. -/
def pyReplace (s : String) (pat rep : Char) : String :=
  String.mk (replaceChar pat rep s.data)

/-- Python `s.split(sep)` for a one-character separator (the source
only splits on the backslash). -/
def splitChar (sep : Char) : List Char → List (List Char)
  | [] => [[]]
  | c :: rest =>
    if c = sep then [] :: splitChar sep rest
    else
      match splitChar sep rest with
      | [] => [[c]]
      | g :: gs => (c :: g) :: gs

/-- Python `s.split(sep)`, one-character separator. -/
def pySplitOn (s : String) (sep : Char) : List String :=
  (splitChar sep s.data).map String.mk

/-- The editable archive: password (code points; empty for `None`),
archive encoding, encryption tag, the two staged tables and the running
central-directory size.  The tables are Python dicts, kept sorted by
key; they are modelled as association lists in iteration order. -/
structure NewZipFile where
  pwd : List Nat
  encoding : String
  encryption : Encryption
  files : List (String × FileRaw)
  cd_headers : List (String × CDHeader)
  sizeof_CD : Nat
  deriving DecidableEq

/-- `ZipFile.new(...)`: the empty staged archive. -/
def NewZipFile.new (pwd : List Nat) (encoding : String)
    (encryption : Encryption) : NewZipFile :=
  ⟨pwd, encoding, encryption, [], [], 0⟩

/-- Python `d[k] = v` on a dict: replace in place when the key exists,
append otherwise. -/
def pyDictUpdate (k : String) (v : α) : List (String × α) → List (String × α)
  | [] => [(k, v)]
  | (k', v') :: rest =>
      if k' = k then (k, v) :: rest else (k', v') :: pyDictUpdate k v rest

/-- Python `d.pop(k)`: drop the entry with key `k`. -/
def pyDictPop (k : String) : List (String × α) → List (String × α)
  | [] => []
  | (k', v') :: rest =>
      if k' = k then rest else (k', v') :: pyDictPop k rest

/-- `sorted(d.items(), key=lambda item: item[0])`: rebuild the dict in
ascending key order (keys are unique, so any correct sort gives this
result; the model uses insertion sort). -/
def sortByKey (l : List (String × α)) : List (String × α) :=
  l.insertionSort fun a b => strLE a.1 b.1 = true

/-- `zipfile.py` lines 211-221, the common tail of
`create_file`/`add_file`: adjust `_sizeof_CD` by the replaced header
length, store the pair under the filename and re-sort both tables. -/
def insertEntry (z : NewZipFile) (file : FileRaw) (cd_header : CDHeader) :
    NewZipFile :=
  let oldLen := match z.cd_headers.lookup file.filename with
    | some h => (h.encode z.encoding).length
    | none => 0
  let sizeof1 := if (z.files.lookup file.filename).isSome then
      z.sizeof_CD - oldLen
    else z.sizeof_CD
  let sizeof2 := sizeof1 + (cd_header.encode z.encoding).length
  { z with
    files := sortByKey (pyDictUpdate file.filename file z.files)
    cd_headers := sortByKey (pyDictUpdate file.filename cd_header z.cd_headers)
    sizeof_CD := sizeof2 }

/-- The staging computation of `create_file` (`zipfile.py` lines
98-209): timestamp packing, CRC, version, bit flag, compression,
optional encryption, ZIP64 extra field, and the construction of the
`FileRaw`/`CDHeader` pair.  `fn` is the final archive key (after the
folder path was prepended), `fpIsRoot` records whether the `fp`
argument was `'.'`.  An empty `fn` hits `fn[-1]` and raises
`IndexError`. -/
def createFileStage (z : NewZipFile) (env : Env) (cx : Codecs)
    (fn : String) (data : Bytes) (fpIsRoot : Bool)
    (compression : Compression) (level : Level) (encoding : String)
    (comment : String) : Except PyErr (FileRaw × CDHeader) :=
  match fn.data.getLast? with
  | none => .error .indexError
  | some lastChar =>
    let time := env.dosTime
    let crc := crc32 data
    let uncompressed_size := data.length
    let v := versionNeeded compression fpIsRoot z.encryption uncompressed_size
    let bit11 := encoding == "utf-8" && lastChar != '/' && validUtf8 data
    let compression_method := compression.methodId
    let data1 := compress cx compression_method level data
    let encryptedFlag := z.encryption != .unencrypted
    let data2 := if z.encryption != .unencrypted then
        encryptData env.rand11 z.pwd crc data1
      else data1
    let isDeflateFam := compression == .deflate || compression == .deflate64
    let bit2 := isDeflateFam && level == .fast
    let bit1 := isDeflateFam && level == .maximum
    let compressed_size := data2.length
    let f_extra_field : Bytes := if compressed_size ≥ INT32_MAX then
        [1, 0, 28, 0] ++ toBytesLE 8 uncompressed_size ++
          toBytesLE 8 compressed_size ++ List.replicate 8 0 ++
          List.replicate 4 0
      else []
    let h_extra_field : Bytes := []
    let storedU := if compressed_size ≥ INT32_MAX then INT32_MAX
      else uncompressed_size
    let storedC := if compressed_size ≥ INT32_MAX then INT32_MAX
      else compressed_size
    let external_attrs : Nat := if lastChar = '/' then 0x10 else 0x20
    let bit_flag : List Bool := [encryptedFlag, bit1, bit2, false, false,
      false, false, false, false, false, false, bit11, false, false,
      false, false]
    let file : FileRaw := {
      version_needed_to_exctract := v
      bit_flag := bit_flag
      compression_method := compression_method
      last_mod_time := (toBytesLE 4 time).take 2
      last_mod_date := (toBytesLE 4 time).drop 2
      crc := crc
      compressed_size := storedC
      uncompressed_size := storedU
      filename_length := (encodeText z.encoding fn).length
      extra_field_length := f_extra_field.length
      filename := fn
      extra_field := f_extra_field
      contents := data2 }
    let cd_header : CDHeader := {
      version_made_by := 63
      platform := env.platform.code
      version_needed_to_exctract := v
      bit_flag := bit_flag
      compression_method := compression_method
      last_mod_time := (toBytesLE 4 time).take 2
      last_mod_date := (toBytesLE 4 time).drop 2
      crc := crc
      compressed_size := storedC
      uncompressed_size := storedU
      filename_length := (encodeText z.encoding fn).length
      extra_field_length := h_extra_field.length
      comment_length := (encodeText z.encoding comment).length
      disk_number_start := 0
      internal_file_attrs := [0, 0]
      external_file_attrs := toBytesLE 4 external_attrs
      local_header_relative_offset := 0
      filename := fn
      extra_field := h_extra_field
      comment := comment }
    .ok (file, cd_header)

/-- The staging computation of `add_file` (`zipfile.py` lines 262-431).
Differences from `create_file`: the data, directory flag, `stat` mode
bits and the NTFS/UNIX extra record come from the filesystem (here:
parameters; `Env` carries the source mtime), the UTF-8 flag guard also
requires non-empty, non-ASCII data, and the central directory header
carries the NTFS/UNIX extra record. -/
def addFileStage (z : NewZipFile) (env : Env) (cx : Codecs)
    (fn : String) (data : Bytes) (fpIsRoot : Bool) (isDir : Bool)
    (hExtraField : Bytes) (statModeBits : Nat)
    (compression : Compression) (level : Level) (encoding : String)
    (comment : String) : FileRaw × CDHeader :=
  let time := env.dosTime
  let crc := crc32 data
  let uncompressed_size := data.length
  let v := versionNeeded compression fpIsRoot z.encryption uncompressed_size
  let bit11 := encoding == "utf-8" && data != ([] : Bytes) &&
    !(data.all (· < 128)) && validUtf8 data
  let compression_method := compression.methodId
  let data1 := compress cx compression_method level data
  let encryptedFlag := z.encryption != .unencrypted
  let data2 := if z.encryption != .unencrypted then
      encryptData env.rand11 z.pwd crc data1
    else data1
  let isDeflateFam := compression == .deflate || compression == .deflate64
  let bit2 := isDeflateFam && level == .fast
  let bit1 := isDeflateFam && level == .maximum
  let compressed_size := data2.length
  let f_extra_field : Bytes := if compressed_size ≥ INT32_MAX then
      [1, 0, 28, 0] ++ toBytesLE 8 uncompressed_size ++
        toBytesLE 8 compressed_size ++ List.replicate 8 0 ++
        List.replicate 4 0
    else []
  let storedU := if compressed_size ≥ INT32_MAX then INT32_MAX
    else uncompressed_size
  let storedC := if compressed_size ≥ INT32_MAX then INT32_MAX
    else compressed_size
  let external_attrs0 : Nat := if isDir then 0x10 else 0x20
  let external_attrs := if env.platform == .linux then
      external_attrs0 ||| ((statModeBits &&& 0xFFFF) <<< 16)
    else external_attrs0
  let bit_flag : List Bool := [encryptedFlag, bit1, bit2, false, false,
    false, false, false, false, false, false, bit11, false, false,
    false, false]
  let file : FileRaw := {
    version_needed_to_exctract := v
    bit_flag := bit_flag
    compression_method := compression_method
    last_mod_time := (toBytesLE 4 time).take 2
    last_mod_date := (toBytesLE 4 time).drop 2
    crc := crc
    compressed_size := storedC
    uncompressed_size := storedU
    filename_length := (encodeText z.encoding fn).length
    extra_field_length := f_extra_field.length
    filename := fn
    extra_field := f_extra_field
    contents := data2 }
  let cd_header : CDHeader := {
    version_made_by := 63
    platform := env.platform.code
    version_needed_to_exctract := v
    bit_flag := bit_flag
    compression_method := compression_method
    last_mod_time := (toBytesLE 4 time).take 2
    last_mod_date := (toBytesLE 4 time).drop 2
    crc := crc
    compressed_size := storedC
    uncompressed_size := storedU
    filename_length := (encodeText z.encoding fn).length
    extra_field_length := hExtraField.length
    comment_length := (encodeText z.encoding comment).length
    disk_number_start := 0
    internal_file_attrs := [0, 0]
    external_file_attrs := toBytesLE 4 external_attrs
    local_header_relative_offset := 0
    filename := fn
    extra_field := hExtraField
    comment := comment }
  (file, cd_header)

/-- The `fd` argument of `create_file`: text (encoded with the per-call
encoding) or raw bytes.  The `TextIO`/`BinaryIO` stream variants behave
as their read-out text/bytes. -/
inductive FileData where
  | str (s : String)
  | bytes (b : Bytes)

/-- Whether `sub` occurs as a contiguous run inside `l`. -/
def listInfixTest (sub : List Char) : List Char → Bool
  | [] => sub.isEmpty
  | c :: rest =>
    List.isPrefixOf sub (c :: rest) || listInfixTest sub rest

/-- Substring test, Python `sub in hay`. -/
def strContains (hay sub : String) : Bool :=
  listInfixTest sub.data hay.data

/-- `get_structure('.')`: every key, rendered as `'.\\' +
key.replace('/', '\\')`. -/
def structureKeys (z : NewZipFile) : List String :=
  z.files.map fun kv => ".\\" ++ pyReplace kv.1 '/' '\\'

/-- The body of `create_file` for `fp == '.'` (no folder handling):
validations on `fn`, staging, insertion.  `create_folder` invokes
`create_file` only in this form (its loop passes the default
`fp='.'`). -/
def createFileAtRoot (z : NewZipFile) (env : Env) (cx : Codecs)
    (fn : String) (fd : FileData) (compression : Compression)
    (level : Level) (encoding : String) (comment : String) :
    Except PyErr NewZipFile :=
  if hasIllegalChar fn then .error .valueError
  else
    let data := match fd with
      | .str s => encodeText encoding s
      | .bytes b => b
    match createFileStage z env cx fn data true compression level
        encoding comment with
    | .error e => .error e
    | .ok (file, cdh) => .ok (insertEntry z file cdh)

/-- The prefix keys created by the `create_folder` loop:
`"/".join(_path[:i+1]) + '/'` for each `i`. -/
def folderPrefixKeys (path : List String) : List String :=
  (List.range path.length).map fun i =>
    String.intercalate "/" (path.take (i + 1)) ++ "/"

/-- The `create_folder` loop: one `create_file(key, b'')` (with default
compression, level and empty comment) per ancestor key. -/
def createFolderLoop (env : Env) (cx : Codecs) (encoding : String) :
    NewZipFile → List String → Except PyErr NewZipFile
  | z, [] => .ok z
  | z, key :: rest =>
    match createFileAtRoot z env cx key (.bytes []) .stored .normal
        encoding "" with
    | .error e => .error e
    | .ok z' => createFolderLoop env cx encoding z' rest

/-- `create_folder` after its `fp` rewriting: the existence guard over
`get_structure()`, then the ancestor-creation loop, returning the
backslash path of the created folder. -/
def createFolderBody (z : NewZipFile) (env : Env) (cx : Codecs)
    (fp : String) (encoding : String) :
    Except PyErr (String × NewZipFile) :=
  if (structureKeys z).any (fun st => strContains st (fp ++ "\\")) then
    .ok (fp.drop 2 ++ "\\", z)
  else
    let path := (pySplitOn fp '\\').drop 1
    match createFolderLoop env cx encoding z (folderPrefixKeys path) with
    | .error e => .error e
    | .ok z' =>
      .ok ((if path.isEmpty then "" else String.intercalate "\\" path)
        ++ "\\", z')

/-- `NewZipFile.create_folder(fn, fp, encoding)`. -/
def createFolder (z : NewZipFile) (env : Env) (cx : Codecs)
    (fn fp : String) (encoding : String) :
    Except PyErr (String × NewZipFile) :=
  match fn.data with
  | [] => .error .indexError
  | f0 :: _ =>
    if f0 ≠ '.' then
      match fp.data with
      | [] => .error .indexError
      | p0 :: _ =>
        if p0 ≠ '.' then .error .valueError
        else createFolderBody z env cx (fp ++ "\\" ++ fn) encoding
    else
      match fp.data with
      | [] => .error .indexError
      | p0 :: _ =>
        if p0 = '.' then
          createFolderBody z env cx (fp ++ "\\" ++ fn.drop 2) encoding
        else createFolderBody z env cx (fp ++ "\\" ++ fn) encoding

/-- The validations shared by `create_file`, `add_file`, `edit_file`
and `remove_file`: illegal characters in `fn`, then `fp[0] == '.'`, no
forward slash in `fp`, no illegal characters in `fp`.  Returns the
exception they raise, if any. -/
def pathChecks (fn fp : String) : Option PyErr :=
  if hasIllegalChar fn then some .valueError
  else match fp.data with
  | [] => some .indexError
  | p0 :: _ =>
    if p0 ≠ '.' then some .valueError
    else if fp.data.any (· = '/') then some .valueError
    else if hasIllegalChar fp then some .valueError
    else none

/-- `NewZipFile.create_file(fn, fd, fp, compression, level, encoding,
comment)`. -/
def createFile (z : NewZipFile) (env : Env) (cx : Codecs)
    (fn : String) (fd : FileData) (fp : String)
    (compression : Compression) (level : Level) (encoding : String)
    (comment : String) : Except PyErr NewZipFile :=
  match pathChecks fn fp with
  | some e => .error e
  | none =>
    let data := match fd with
      | .str s => encodeText encoding s
      | .bytes b => b
    if fp = "." then
      match createFileStage z env cx fn data true compression level
          encoding comment with
      | .error e => .error e
      | .ok (file, cdh) => .ok (insertEntry z file cdh)
    else
      match createFolder z env cx fp "." encoding with
      | .error e => .error e
      | .ok (p, z') =>
        let fn' := pyReplace p '\\' '/' ++ fn
        match createFileStage z' env cx fn' data false compression level
            encoding comment with
        | .error e => .error e
        | .ok (file, cdh) => .ok (insertEntry z' file cdh)

/-- `NewZipFile.add_file(fn, fd, fp, ...)`: same validations, data and
mtime from the filesystem (parameters), then the `add_file` staging. -/
def addFile (z : NewZipFile) (env : Env) (cx : Codecs)
    (fn : String) (fsExists fsIsDir : Bool) (fsData : Bytes)
    (hExtraField : Bytes) (statModeBits : Nat) (fp : String)
    (compression : Compression) (level : Level) (encoding : String)
    (comment : String) : Except PyErr NewZipFile :=
  match pathChecks fn fp with
  | some e => .error e
  | none =>
    if ¬fsExists then .error .fileNotFound
    else
      let data := if fsIsDir then [] else fsData
      if fp = "." then
        let (file, cdh) := addFileStage z env cx fn data true fsIsDir
          hExtraField statModeBits compression level encoding comment
        .ok (insertEntry z file cdh)
      else
        match createFolder z env cx fp "." encoding with
        | .error e => .error e
        | .ok (p, z') =>
          let fn' := pyReplace p '\\' '/' ++ fn
          let (file, cdh) := addFileStage z' env cx fn' data false fsIsDir
            hExtraField statModeBits compression level encoding comment
          .ok (insertEntry z' file cdh)

/-- `s.removeprefix('.\\')`. -/
def removeDotSlash (s : String) : String :=
  if pyStartsWith s ".\\" then s.drop 2 else s

/-- `NewZipFile.remove_file(fn, fp)` (`zipfile.py` lines 469-487):
validations, key computation, then `self._files.pop(_p)`.  Only the
`_files` table is popped; `_cd_headers` is left untouched. -/
def removeFile (z : NewZipFile) (fn fp : String) :
    Except PyErr NewZipFile :=
  match pathChecks fn fp with
  | some e => .error e
  | none =>
    let key := pyReplace (removeDotSlash (fp ++ "\\" ++ fn)) '\\' '/'
    if (z.files.lookup key).isSome then
      .ok { z with files := pyDictPop key z.files }
    else .error .fileNotFound

/-- `NewZipFile.remove_folder(fn, fp)` (`zipfile.py` lines 580-602):
path rewriting, then every key of `_files` that starts with the folder
path (or every key, when the path is `'.'`) is popped from `_files`
only; `_cd_headers` is left untouched.  Returns the deleted keys. -/
def removeFolder (z : NewZipFile) (fn fp : String) :
    Except PyErr (List String × NewZipFile) :=
  match fp.data with
  | [] => .error .indexError
  | p0 :: _ =>
    if p0 ≠ '.' then .error .valueError
    else if fn = "." then removeFolderBody z fp
    else match fn.data with
    | [] => .error .indexError
    | f0 :: _ =>
      if f0 = '.' then
        removeFolderBody z (pyReplace (fn.drop 2) '\\' '/' ++ "/")
      else removeFolderBody z (fp ++ "\\" ++ fn)
where
  /-- The deletion pass of `remove_folder`. -/
  removeFolderBody (z : NewZipFile) (fp : String) :
      Except PyErr (List String × NewZipFile) :=
    let deletes := (z.files.map Prod.fst).filter fun p =>
      pyStartsWith p fp || fp == "."
    .ok (deletes, { z with
      files := deletes.foldl (fun fs k => pyDictPop k fs) z.files })

/-- The ZIP64 offset patch of `save`: replace bytes 20-28 of the extra
field with the 8-byte local header offset. -/
def savePatchExtra (off : Nat) (extra : Bytes) : Bytes :=
  extra.take 20 ++ toBytesLE 8 off ++ extra.drop 28

/-- One iteration of the `save` loop over an entry `(k, f)` at running
offset `off`: record the offset in the entry's central directory
header, and patch the ZIP64 offset slot (in the entry and its header)
when the entry is ZIP64-promoted. -/
def saveEntry (k : String) (f : FileRaw)
    (cd : List (String × CDHeader)) (off : Nat) :
    FileRaw × List (String × CDHeader) :=
  let cd1 := cd.map fun p =>
    if p.1 = k then (p.1, { p.2 with local_header_relative_offset := off })
    else p
  if f.compressed_size ≥ INT32_MAX then
    if f.extra_field.take 2 = [1, 0] then
      let newExtra := savePatchExtra off f.extra_field
      ({ f with extra_field := newExtra },
        cd1.map fun p =>
          if p.1 = k then (p.1, { p.2 with extra_field := newExtra })
          else p)
    else (f, cd1)
  else (f, cd1)

/-- The per-entry pass of `save` (`zipfile.py` lines 650-667): run
`saveEntry` for each staged entry in table order, emit the encoded
entry, and advance the offset.  Returns the emitted bytes, the updated
header table and the final offset (the start of the central
directory). -/
def savePass (encoding : String) :
    List (String × FileRaw) → List (String × CDHeader) → Nat →
      Bytes × List (String × CDHeader) × Nat
  | [], cd, off => ([], cd, off)
  | (k, f) :: rest, cd, off =>
    let fcd2 := saveEntry k f cd off
    let bytes := fcd2.1.encode encoding
    let r := savePass encoding rest fcd2.2 (off + bytes.length)
    (bytes ++ r.1, r.2.1, r.2.2)

/-- The end record built by `save` (`zipfile.py` lines 675-684). -/
def saveEndRecord (z : NewZipFile) (comment : String) : CDEnd :=
  let r := savePass z.encoding z.files z.cd_headers 0
  { disk_num := 0
    disk_num_CD := 0
    total_entries := z.files.length
    total_CD_entries := z.cd_headers.length
    sizeof_CD := z.sizeof_CD
    offset := r.2.2
    comment_length := (encodeText z.encoding comment).length
    comment := comment }

/-- `NewZipFile.save`: the full byte stream written to the destination:
every encoded entry, then every encoded central directory header, then
the encoded end record.  No `PK` signature bytes are ever written. -/
def save (z : NewZipFile) (comment : String) : Bytes :=
  let r := savePass z.encoding z.files z.cd_headers 0
  r.1 ++ (r.2.1.map fun kv => kv.2.encode z.encoding).flatten ++
    (saveEndRecord z comment).encode z.encoding

/-! ## Archive reader (`ZipFile.open`, `zippy/zipfile/zipfile.py`
lines 887-937, and the parsers of `zippy/zipfile/_zipfile.py`)

The byte source is a list; `file.read(n)` is `take n` at the running
position, which `drop` advances (`read` past the end returns the
remaining bytes, possibly none, exactly like a Python stream).  Each
parser returns the number of bytes it consumed. -/

/-- A broken-down timestamp (`datetime.combine(date(...), time(...))`). -/
structure DateTime6 where
  year : Nat
  month : Nat
  day : Nat
  hour : Nat
  minute : Nat
  second : Nat
  deriving DecidableEq, Repr

/-- Gregorian leap-year rule (used by `datetime.date` validation). -/
def leapYear (y : Nat) : Bool :=
  (y % 4 == 0 && y % 100 != 0) || y % 400 == 0

/-- Days in a month, per `datetime.date` validation. -/
def daysInMonth (year month : Nat) : Nat :=
  if month = 2 then (if leapYear year then 29 else 28)
  else if month = 4 ∨ month = 6 ∨ month = 9 ∨ month = 11 then 30
  else 31

/-- The user-facing decoded entry (`zippy/_base_classes.py`, `File`). -/
structure PFile where
  filename : String
  is_dir : Bool
  version_needed_to_exctract : Nat
  encryption_method : String
  compression_method : String
  compression_level : String
  last_mod_time : Option DateTime6
  crc : Nat
  compressed_size : Nat
  uncompressed_size : Nat
  contents : Bytes
  comment : String
  deriving DecidableEq, Repr

/-- `FileRaw.__init_raw__` (`_zipfile.py` lines 29-75).  Returns the
parsed record and the number of bytes consumed. -/
def parseFileRaw (encoding : String) (l : Bytes) :
    Except PyErr (FileRaw × Nat) :=
  match l with
  | [] => .error .indexError
  | [_] => .error .indexError
  | _v0 :: v1 :: _ =>
    if v1 ≠ 0 then .error (.badFile "Unknown version value")
    else
      let r0 := l.drop 2
      let bit_flag := (r0.take 2).flatMap byteToBits
      let r1 := r0.drop 2
      let compression_method := fromBytesLE (r1.take 2)
      let r2 := r1.drop 2
      let last_mod_time := r2.take 2
      let r3 := r2.drop 2
      let last_mod_date := r3.take 2
      let r4 := r3.drop 2
      let crc := fromBytesLE (r4.take 4)
      let r5 := r4.drop 4
      let compressed_size := fromBytesLE (r5.take 4)
      let r6 := r5.drop 4
      let uncompressed_size := fromBytesLE (r6.take 4)
      let r7 := r6.drop 4
      let filename_length := fromBytesLE (r7.take 2)
      let r8 := r7.drop 2
      let extra_field_length := fromBytesLE (r8.take 2)
      let r9 := r8.drop 2
      let fnBytes := r9.take filename_length
      let r10 := r9.drop filename_length
      let extra_field := r10.take extra_field_length
      let r11 := r10.drop extra_field_length
      let sizes :=
        if compressed_size = 4294967295 ∧ extra_field.take 2 = [1, 0] then
          (fromBytesLE ((extra_field.drop 4).take 8),
            fromBytesLE ((extra_field.drop 12).take 8))
        else (uncompressed_size, compressed_size)
      let contents := r11.take sizes.2
      let r12 := r11.drop sizes.2
      match bit_flag.get? 3 with
      | none => .error .indexError
      | some dd =>
        let after :=
          if dd then
            let s1 := r12.take 4
            let r13 := r12.drop 4
            if s1 = [80, 75, 7, 8] then
              (fromBytesLE (r13.take 4),
                fromBytesLE ((r13.drop 4).take 4),
                fromBytesLE ((r13.drop 8).take 4), (12 : Nat))
            else
              (fromBytesLE s1, fromBytesLE (r13.take 4),
                fromBytesLE ((r13.drop 4).take 4), (8 : Nat))
          else (crc, sizes.2, sizes.1, 0)
        let ddBytes := if dd then 4 + after.2.2.2 else 0
        match bit_flag.get? 13 with
        | none => .error .indexError
        | some b13 =>
          if b13 then .error (.notImplementedError
            "Central Directory decryption is not implemented yet.")
          else
            match decodeText encoding fnBytes with
            | none => .error .unicodeDecodeError
            | some filename =>
              .ok ({
                version_needed_to_exctract := l.headD 0
                bit_flag := bit_flag
                compression_method := compression_method
                last_mod_time := last_mod_time
                last_mod_date := last_mod_date
                crc := after.1
                compressed_size := after.2.1
                uncompressed_size := after.2.2.1
                filename_length := filename_length
                extra_field_length := extra_field_length
                filename := filename
                extra_field := extra_field
                contents := contents },
              26 + filename_length + extra_field_length + sizes.2 + ddBytes)

/-- `CDHeader.__init_raw__` (`_zipfile.py` lines 170-217). -/
def parseCDHeader (encoding : String) (l : Bytes) :
    Except PyErr (CDHeader × Nat) :=
  let version_made_by := fromBytesLE (l.take 1)
  let r0 := l.drop 1
  let platform := fromBytesLE (r0.take 1)
  let r1 := r0.drop 1
  let version := fromBytesLE (r1.take 2)
  let r2 := r1.drop 2
  let bit_flag := (r2.take 2).flatMap byteToBits
  let r3 := r2.drop 2
  let compression_method := fromBytesLE (r3.take 2)
  let r4 := r3.drop 2
  let last_mod_time := r4.take 2
  let r5 := r4.drop 2
  let last_mod_date := r5.take 2
  let r6 := r5.drop 2
  let crc := fromBytesLE (r6.take 4)
  let r7 := r6.drop 4
  let compressed_size := fromBytesLE (r7.take 4)
  let r8 := r7.drop 4
  let uncompressed_size := fromBytesLE (r8.take 4)
  let r9 := r8.drop 4
  let file_name_length := fromBytesLE (r9.take 2)
  let r10 := r9.drop 2
  let extra_field_length := fromBytesLE (r10.take 2)
  let r11 := r10.drop 2
  let file_comment_length := fromBytesLE (r11.take 2)
  let r12 := r11.drop 2
  let disk_number_start := fromBytesLE (r12.take 2)
  let r13 := r12.drop 2
  let internal_file_attrs := r13.take 2
  let r14 := r13.drop 2
  let external_file_attrs := r14.take 4
  let r15 := r14.drop 4
  let local_header_relative_offset := fromBytesLE (r15.take 4)
  let r16 := r15.drop 4
  let fnBytes := r16.take file_name_length
  let r17 := r16.drop file_name_length
  let extra_field := r17.take extra_field_length
  let r18 := r17.drop extra_field_length
  let sizes :=
    if compressed_size = 4294967295 ∧ extra_field.take 2 = [1, 0] then
      (fromBytesLE ((extra_field.drop 4).take 8),
        fromBytesLE ((extra_field.drop 12).take 8))
    else (uncompressed_size, compressed_size)
  let commentBytes := r18.take file_comment_length
  match decodeText encoding fnBytes, decodeText encoding commentBytes with
  | some filename, some file_comment =>
    .ok ({
      version_made_by := version_made_by
      platform := platform
      version_needed_to_exctract := version
      bit_flag := bit_flag
      compression_method := compression_method
      last_mod_time := last_mod_time
      last_mod_date := last_mod_date
      crc := crc
      compressed_size := sizes.2
      uncompressed_size := sizes.1
      filename_length := file_name_length
      extra_field_length := extra_field_length
      comment_length := file_comment_length
      disk_number_start := disk_number_start
      internal_file_attrs := internal_file_attrs
      external_file_attrs := external_file_attrs
      local_header_relative_offset := local_header_relative_offset
      filename := filename
      extra_field := extra_field
      comment := file_comment },
    42 + file_name_length + extra_field_length + file_comment_length)
  | _, _ => .error .unicodeDecodeError

/-- `CDEnd.__init_raw__` (`_zipfile.py` lines 259-279). -/
def parseCDEnd (encoding : String) (l : Bytes) : Except PyErr CDEnd :=
  let disk_num := fromBytesLE (l.take 2)
  let r0 := l.drop 2
  let disk_num_CD := fromBytesLE (r0.take 2)
  let r1 := r0.drop 2
  let total_entries := fromBytesLE (r1.take 2)
  let r2 := r1.drop 2
  let total_CD_entries := fromBytesLE (r2.take 2)
  let r3 := r2.drop 2
  let sizeof_CD := fromBytesLE (r3.take 4)
  let r4 := r3.drop 4
  let offset := fromBytesLE (r4.take 4)
  let r5 := r4.drop 4
  let comment_length := fromBytesLE (r5.take 2)
  let r6 := r5.drop 2
  match decodeText encoding (r6.take comment_length) with
  | none => .error .unicodeDecodeError
  | some comment =>
    .ok ⟨disk_num, disk_num_CD, total_entries, total_CD_entries,
      sizeof_CD, offset, comment_length, comment⟩

/-- `FileRaw.decode` (`_zipfile.py` lines 77-123): decrypt, decompress,
unpack the DOS timestamp (invalid values yield `None`), derive the
compression level from flag bits 1-2, and build the `File` record.  An
empty filename hits `self.filename[-1]` and raises `IndexError`; a flag
string too short for the `bit_flag[1:3]` level match leaves
`compression_level` unbound (a `NameError`, modelled as `typeError`). -/
def decodeFileRaw (cx : Codecs) (pwd : List Nat) (f : FileRaw) :
    Except PyErr PFile :=
  match decrypt f.bit_flag f.version_needed_to_exctract f.crc pwd
      f.contents with
  | .error e => .error e
  | .ok (encryption_method, contents1) =>
    match decompress cx f.compression_method f.uncompressed_size
        contents1 with
    | .error e => .error e
    | .ok (compression_method, contents) =>
      let lmt := fromBytesLE f.last_mod_time
      let lmd := fromBytesLE f.last_mod_date
      let hour := (lmt >>> 11) &&& 0x1F
      let minute := (lmt >>> 5) &&& 0x3F
      let second := (lmt <<< 1) &&& 0x3E
      let year := (lmd >>> 9) + 1980
      let month := (lmd >>> 5) &&& 0xF
      let day := lmd &&& 0x1F
      let lastMod : Option DateTime6 :=
        if 1 ≤ month ∧ month ≤ 12 ∧ 1 ≤ day ∧
            day ≤ daysInMonth year month ∧ hour ≤ 23 ∧ minute ≤ 59 ∧
            second ≤ 59 then
          some ⟨year, month, day, hour, minute, second⟩
        else none
      let levelOpt : Option String :=
        if compression_method = "Deflate" ∨
            compression_method = "Deflate64" then
          match (f.bit_flag.drop 1).take 2 with
          | [false, false] => some "Normal"
          | [true, false] => some "Maximum"
          | [false, true] => some "Fast"
          | [true, true] => some "Fast"
          | _ => none
        else some "Normal"
      match levelOpt with
      | none => .error .typeError
      | some compression_level =>
        match f.filename.data.getLast? with
        | none => .error .indexError
        | some lastChar =>
          .ok {
            filename := f.filename
            is_dir := lastChar = '/'
            version_needed_to_exctract := f.version_needed_to_exctract
            encryption_method := encryption_method
            compression_method := compression_method
            compression_level := compression_level
            last_mod_time := lastMod
            crc := f.crc
            compressed_size := f.compressed_size
            uncompressed_size := f.uncompressed_size
            contents := contents
            comment := "" }

/-- Outcome of the signature scan of `ZipFile.open`. -/
inductive ScanOut where
  | done (files : List PFile) (headers : List CDHeader) (eocd : CDEnd)
  | fail (e : PyErr)
  | hangs
  deriving DecidableEq, Repr

theorem take_four_length {l : Bytes} {a b c d : Nat}
    (h : l.take 4 = [a, b, c, d]) : 4 ≤ l.length := by
  have := congrArg List.length h
  simp [List.length_take] at this
  omega

/-- The `while True` scan loop of `ZipFile.open` (`zipfile.py` lines
915-925).  Branches: `PK\x03\x04` parse-and-decode an entry,
`PK\x01\x02` parse a central directory header, `PK\x05\x06` parse the
end record and stop.  The loop has no `else` branch: any other 4-byte
group is consumed and scanning silently continues; at end of stream
`f.read(4)` returns `b''` forever and the loop never terminates
(`hangs`). -/
def scanLoop (cx : Codecs) (pwd : List Nat) (enc : String)
    (remaining : Bytes) (files : List PFile) (headers : List CDHeader) :
    ScanOut :=
  if h34 : remaining.take 4 = [80, 75, 3, 4] then
    have _h4 : 4 ≤ remaining.length := take_four_length h34
    match parseFileRaw enc (remaining.drop 4) with
    | .error e => .fail e
    | .ok (raw, n) =>
      match decodeFileRaw cx pwd raw with
      | .error e => .fail e
      | .ok file =>
        scanLoop cx pwd enc ((remaining.drop 4).drop n)
          (files ++ [file]) headers
  else if h12 : remaining.take 4 = [80, 75, 1, 2] then
    have _h4 : 4 ≤ remaining.length := take_four_length h12
    match parseCDHeader enc (remaining.drop 4) with
    | .error e => .fail e
    | .ok (h, n) =>
      scanLoop cx pwd enc ((remaining.drop 4).drop n) files
        (headers ++ [h])
  else if _h56 : remaining.take 4 = [80, 75, 5, 6] then
    match parseCDEnd enc (remaining.drop 4) with
    | .error e => .fail e
    | .ok eocd => .done files headers eocd
  else if hnil : remaining = [] then .hangs
  else
    scanLoop cx pwd enc (remaining.drop 4) files headers
termination_by remaining.length
decreasing_by
  · simp only [List.length_drop]; omega
  · simp only [List.length_drop]; omega
  · have : remaining.length ≠ 0 := fun hz =>
      hnil (List.length_eq_zero.mp hz)
    simp only [List.length_drop]; omega

/-- The final verification loop of `ZipFile.open` (`zipfile.py` lines
930-935): for each `(file, header)` pair of `zip(files, CD_headers)`,
recompute the CRC-32 of the decoded payload and require it to equal
both stored CRC fields, then copy the header comment into the entry. -/
def crcPhase : List PFile → List CDHeader → Except PyErr (List PFile)
  | fs, [] => .ok fs
  | [], _ :: _ => .ok []
  | f :: fs, h :: hs =>
    let crc := crc32 f.contents
    if f.crc ≠ crc ∨ h.crc ≠ crc then
      .error (.badFile "File is corrupted or damaged.")
    else
      match crcPhase fs hs with
      | .error e => .error e
      | .ok rest => .ok ({ f with comment := h.comment } :: rest)

/-- Result of `ZipFile.open`. -/
inductive OpenResult where
  | ok (files : List PFile) (headers : List CDHeader) (eocd : CDEnd)
  | fail (e : PyErr)
  | hangs
  deriving DecidableEq, Repr

/-- The signature scan of `ZipFile.open`: the first 4 bytes must be
`PK\x03\x04` (parse one entry, then loop) or `PK\x05\x06` (empty
archive); anything else fails with
`BadFile('File should be in .ZIP format.')`. -/
def scanArchive (cx : Codecs) (pwd : List Nat) (enc : String)
    (bytes : Bytes) : ScanOut :=
  if bytes.take 4 = [80, 75, 3, 4] then
    match parseFileRaw enc (bytes.drop 4) with
    | .error e => .fail e
    | .ok (raw, n) =>
      match decodeFileRaw cx pwd raw with
      | .error e => .fail e
      | .ok file =>
        scanLoop cx pwd enc ((bytes.drop 4).drop n) [file] []
  else if bytes.take 4 = [80, 75, 5, 6] then
    match parseCDEnd enc (bytes.drop 4) with
    | .error e => .fail e
    | .ok eocd => .done [] [] eocd
  else .fail (.badFile "File should be in .ZIP format.")

/-- `ZipFile.open`: scan, then (for a non-empty archive) the CRC
verification pass.  The empty-archive branch returns before the
verification loop (which would be vacuous anyway). -/
def openArchive (cx : Codecs) (pwd : List Nat) (enc : String)
    (bytes : Bytes) : OpenResult :=
  if bytes.take 4 = [80, 75, 5, 6] then
    match scanArchive cx pwd enc bytes with
    | .done fs hs eocd => .ok fs hs eocd
    | .fail e => .fail e
    | .hangs => .hangs
  else
    match scanArchive cx pwd enc bytes with
    | .done fs hs eocd =>
      match crcPhase fs hs with
      | .error e => .fail e
      | .ok fs' => .ok fs' hs eocd
    | .fail e => .fail e
    | .hangs => .hangs

/-! ## Concrete evaluation helpers -/

/-- A fixed environment for concrete evaluations: 2024-05-17 12:30:44,
Linux, zero randomness. -/
def demoEnv : Env :=
  ⟨2024, 5, 17, 12, 30, 44, .linux, List.replicate 11 0⟩

/-- Unwrap an editable-archive result, falling back to a fresh empty
archive (the fallback is never reached in the uses below). -/
def fromOk (r : Except PyErr NewZipFile) : NewZipFile :=
  match r with
  | .ok z => z
  | .error _ => NewZipFile.new [] "utf-8" .unencrypted

/-- One staged entry: `create_file('a', b'x')` on a fresh unencrypted
archive. -/
def oneEntryState : NewZipFile :=
  fromOk (createFile (NewZipFile.new [] "utf-8" .unencrypted) demoEnv
    trivCodecs "a" (.bytes [120]) "." .stored .normal "utf-8" "")

/-- C1 (the code violates the claim).  `save` on a staged archive with
one entry does not begin with the `PK\x03\x04` signature (none of the
`encode` methods nor `save` itself ever writes the `PK` signatures),
and the library's own reader rejects the output stream, so
byte-identical round-tripping is impossible. -/
theorem save_omits_signatures :
    oneEntryState.files.length = 1 ∧
    (save oneEntryState "").take 4 ≠ [80, 75, 3, 4] ∧
    openArchive trivCodecs [] "utf-8" (save oneEntryState "") =
      .fail (.badFile "File should be in .ZIP format.") := by decide

/-- The one-entry archive after `remove_file('a', '.')`. -/
def removedState : NewZipFile :=
  fromOk (removeFile oneEntryState "a" ".")

/-- C5 (the code violates the claim).  `remove_file` pops the staged
entry from `_files` but not from `_cd_headers`, so at the next `save`
the end record's `total_entries` (0) and `total_CD_entries` (1)
disagree, and a stale central directory header is still emitted. -/
theorem remove_leaves_stale_cd_header :
    (saveEndRecord removedState "").total_entries = 0 ∧
    (saveEndRecord removedState "").total_CD_entries = 1 ∧
    removedState.files.length = 0 ∧
    removedState.cd_headers.length = 1 := by decide

/-- C4 archive: one stored entry `'a'` = `b'x'`, then the unrecognized
4-byte group `ABCD`, then the end record. -/
def c4bytes : Bytes :=
  [80, 75, 3, 4, 20, 0, 0, 0, 0, 0, 0, 0, 0, 0, 131, 22, 220, 140,
    1, 0, 0, 0, 1, 0, 0, 0, 1, 0, 0, 0, 97, 120] ++
  [65, 66, 67, 68] ++
  [80, 75, 5, 6, 0, 0, 0, 0, 1, 0, 1, 0, 0, 0, 0, 0, 0, 0, 0, 0, 0, 0]

/-- C6 archive: one stored entry `'a'` = `b'x'` with a matching central
directory header, then the end record. -/
def c6bytes : Bytes :=
  [80, 75, 3, 4, 20, 0, 0, 0, 0, 0, 0, 0, 0, 0, 131, 22, 220, 140,
    1, 0, 0, 0, 1, 0, 0, 0, 1, 0, 0, 0, 97, 120] ++
  [80, 75, 1, 2, 63, 3, 20, 0, 0, 0, 0, 0, 0, 0, 0, 0,
    131, 22, 220, 140, 1, 0, 0, 0, 1, 0, 0, 0, 1, 0, 0, 0, 0, 0, 0, 0,
    0, 0, 32, 0, 0, 0, 0, 0, 0, 0, 97] ++
  [80, 75, 5, 6, 0, 0, 0, 0, 1, 0, 1, 0, 0, 0, 0, 0, 0, 0, 0, 0, 0, 0]

/-- The parsed first entry of `c4bytes`/`c6bytes`. -/
def c4raw : FileRaw :=
  ⟨20, List.replicate 16 false, 0, [0, 0], [0, 0], 2363233923, 1, 1, 1,
    0, "a", [], [120]⟩

/-- The decoded first entry of `c4bytes`/`c6bytes`. -/
def c4file : PFile :=
  ⟨"a", false, 20, "Unencrypted", "Stored", "Normal", none, 2363233923,
    1, 1, [120], ""⟩

/-- The end record of `c4bytes`/`c6bytes`. -/
def c4eocd : CDEnd := ⟨0, 0, 1, 1, 0, 0, 0, ""⟩

/-- C4 counterexample.  The claim says an unrecognized signature inside
the scan loop makes `open` fail with `BadFile`; on `c4bytes`, whose
entry is followed by the unrecognized group `ABCD`, `open` instead
skips the 4 bytes silently and returns the archive. -/
theorem scan_skips_garbage_counterexample :
    openArchive trivCodecs [] "utf-8" c4bytes = .ok [c4file] [] c4eocd := by
  have hparse : parseFileRaw "utf-8" (c4bytes.drop 4) = .ok (c4raw, 28) := by
    decide
  have hdec : decodeFileRaw trivCodecs [] c4raw = .ok c4file := by decide
  have hend : parseCDEnd "utf-8" ((((c4bytes.drop 4).drop 28).drop 4).drop 4) =
      .ok c4eocd := by decide
  unfold openArchive scanArchive
  rw [if_neg (by decide : ¬c4bytes.take 4 = [80, 75, 5, 6]),
    if_pos (by decide : c4bytes.take 4 = [80, 75, 3, 4]), hparse]
  simp only []
  rw [hdec]
  simp only []
  rw [scanLoop]
  rw [dif_neg (by decide), dif_neg (by decide), dif_neg (by decide),
    dif_neg (by decide)]
  rw [scanLoop]
  rw [dif_neg (by decide), dif_neg (by decide),
    dif_pos (by decide : (((c4bytes.drop 4).drop 28).drop 4).take 4 =
      [80, 75, 5, 6])]
  rw [hend]
  simp +decide [crcPhase, c4file]

/-- C4 (amended).  An unrecognized 4-byte signature at the very start
of the stream fails with `BadFile('File should be in .ZIP format.')`;
inside the scan loop an unrecognized 4-byte group is silently consumed
and scanning continues; and when the stream is exhausted without an end
record the loop never terminates (it reads `b''` forever). -/
theorem scan_signature_handling (cx : Codecs) (pwd : List Nat)
    (enc : String) :
    (∀ bytes : Bytes, bytes.take 4 ≠ [80, 75, 3, 4] →
      bytes.take 4 ≠ [80, 75, 5, 6] →
      openArchive cx pwd enc bytes =
        .fail (.badFile "File should be in .ZIP format.")) ∧
    (∀ (g rest : Bytes) (files : List PFile) (headers : List CDHeader),
      g.length = 4 → g ≠ [80, 75, 3, 4] → g ≠ [80, 75, 1, 2] →
      g ≠ [80, 75, 5, 6] →
      scanLoop cx pwd enc (g ++ rest) files headers =
        scanLoop cx pwd enc rest files headers) ∧
    (∀ (files : List PFile) (headers : List CDHeader),
      scanLoop cx pwd enc [] files headers = .hangs) := by
  refine ⟨?_, ?_, ?_⟩
  · intro bytes h34 h56
    unfold openArchive scanArchive
    rw [if_neg h56, if_neg h34, if_neg h56]
  · intro g rest files headers hlen h34 h12 h56
    have ht : (g ++ rest).take 4 = g := by
      rw [show (4 : Nat) = g.length from hlen.symm, List.take_left]
    have hd : (g ++ rest).drop 4 = rest := by
      rw [show (4 : Nat) = g.length from hlen.symm, List.drop_left]
    rw [scanLoop]
    rw [dif_neg (by rw [ht]; exact h34), dif_neg (by rw [ht]; exact h12),
      dif_neg (by rw [ht]; exact h56),
      dif_neg (by
        intro hc
        have := congrArg List.length hc
        simp [hlen] at this)]
    rw [hd]
  · intro files headers
    rw [scanLoop]
    rw [dif_neg (by decide), dif_neg (by decide), dif_neg (by decide),
      dif_pos rfl]

/-- Witness for C4: the three amended clauses at concrete inputs. -/
theorem scan_signature_handling_witness :
    openArchive trivCodecs [] "utf-8" [1, 2, 3] =
      .fail (.badFile "File should be in .ZIP format.") ∧
    scanLoop trivCodecs [] "utf-8" ([65, 66, 67, 68] ++ [80]) [] [] =
      scanLoop trivCodecs [] "utf-8" [80] [] [] ∧
    scanLoop trivCodecs [] "utf-8" [] [] [] = .hangs :=
  ⟨(scan_signature_handling trivCodecs [] "utf-8").1 [1, 2, 3]
      (by decide) (by decide),
    (scan_signature_handling trivCodecs [] "utf-8").2.1 [65, 66, 67, 68]
      [80] [] [] (by decide) (by decide) (by decide) (by decide),
    (scan_signature_handling trivCodecs [] "utf-8").2.2 [] []⟩

/-- The entry list returned by a successful CRC pass: each paired entry
receives its header's comment. -/
def commentPatch : List PFile → List CDHeader → List PFile
  | fs, [] => fs
  | [], _ :: _ => []
  | f :: fs, h :: hs => { f with comment := h.comment } :: commentPatch fs hs

/-- Characterization of the CRC pass: it either succeeds, returning the
comment-patched entries, or fails with `BadFile`; and it succeeds
exactly when every paired entry's recomputed payload CRC-32 equals both
stored CRC fields. -/
theorem crcPhase_spec (fs : List PFile) (hs : List CDHeader) :
    (crcPhase fs hs = .ok (commentPatch fs hs) ∨
      crcPhase fs hs = .error (.badFile "File is corrupted or damaged.")) ∧
    (crcPhase fs hs = .ok (commentPatch fs hs) ↔
      ∀ p ∈ fs.zip hs, p.1.crc = crc32 p.1.contents ∧
        p.2.crc = crc32 p.1.contents) := by
  induction fs generalizing hs with
  | nil =>
    cases hs with
    | nil => simp [crcPhase, commentPatch]
    | cons h hs => simp [crcPhase, commentPatch]
  | cons f fs ih =>
    cases hs with
    | nil => simp [crcPhase, commentPatch]
    | cons h hs =>
      by_cases hbad : f.crc ≠ crc32 f.contents ∨ h.crc ≠ crc32 f.contents
      · constructor
        · right
          simp [crcPhase, if_pos hbad]
        · simp only [crcPhase, if_pos hbad]
          constructor
          · intro hcontra
            exact absurd hcontra (by simp)
          · intro hall
            have := hall (f, h) (by simp [List.zip])
            rcases hbad with hb | hb <;> simp_all
      · push_neg at hbad
        obtain ⟨hf, hh⟩ := hbad
        have hcond : ¬(f.crc ≠ crc32 f.contents ∨ h.crc ≠ crc32 f.contents) := by
          push_neg
          exact ⟨hf, hh⟩
        rcases (ih hs).1 with hok | herr
        · constructor
          · left
            simp [crcPhase, if_neg hcond, hok, commentPatch]
          · simp only [crcPhase, if_neg hcond, hok, commentPatch]
            constructor
            · intro _ p hp
              rcases List.mem_cons.mp (by simpa [List.zip] using hp) with
                rfl | hmem
              · exact ⟨hf, hh⟩
              · exact ((ih hs).2.mp hok) p hmem
            · intro _
              trivial
        · constructor
          · right
            simp [crcPhase, if_neg hcond, herr]
          · simp only [crcPhase, if_neg hcond, herr]
            constructor
            · intro hcontra
              exact absurd hcontra (by simp)
            · intro hall
              have : crcPhase fs hs = .ok (commentPatch fs hs) :=
                (ih hs).2.mpr fun p hp => hall p (by
                  simp only [List.zip_cons_cons, List.mem_cons]
                  exact Or.inr hp)
              rw [this] at herr
              exact absurd herr (by simp)

/-- C6.  When the signature scan of `open` succeeds (non-empty-archive
path), `open` returns the decoded entries exactly when every entry that
has a matching central directory header satisfies the double CRC-32
check (payload CRC equals both the local and the central header CRC
field); any mismatch fails with
`BadFile('File is corrupted or damaged.')`. -/
theorem open_verifies_crc (cx : Codecs) (pwd : List Nat) (enc : String)
    (bytes : Bytes) (fs : List PFile) (hs : List CDHeader) (eocd : CDEnd)
    (hscan : scanArchive cx pwd enc bytes = .done fs hs eocd)
    (hne : bytes.take 4 ≠ [80, 75, 5, 6]) :
    (openArchive cx pwd enc bytes = .ok (commentPatch fs hs) hs eocd ↔
      ∀ p ∈ fs.zip hs, p.1.crc = crc32 p.1.contents ∧
        p.2.crc = crc32 p.1.contents) ∧
    ((¬ ∀ p ∈ fs.zip hs, p.1.crc = crc32 p.1.contents ∧
        p.2.crc = crc32 p.1.contents) →
      openArchive cx pwd enc bytes =
        .fail (.badFile "File is corrupted or damaged.")) := by
  unfold openArchive
  rw [if_neg hne, hscan]
  simp only []
  obtain ⟨hdisj, hiff⟩ := crcPhase_spec fs hs
  rcases hdisj with hok | herr
  · rw [hok]
    simp only []
    constructor
    · constructor
      · intro _
        exact hiff.mp hok
      · intro _
        trivial
    · intro hnall
      exact absurd (hiff.mp hok) hnall
  · rw [herr]
    simp only []
    constructor
    · constructor
      · intro hcontra
        exact absurd hcontra (by simp)
      · intro hall
        rw [hiff.mpr hall] at herr
        exact absurd herr (by simp)
    · intro _
      trivial

/-- The central directory header of `c6bytes`. -/
def c6header : CDHeader :=
  ⟨63, 3, 20, List.replicate 16 false, 0, [0, 0], [0, 0], 2363233923,
    1, 1, 1, 0, 0, 0, [0, 0], [32, 0, 0, 0], 0, "a", [], ""⟩

theorem c6_scan : scanArchive trivCodecs [] "utf-8" c6bytes =
    .done [c4file] [c6header] c4eocd := by
  have hparse : parseFileRaw "utf-8" (c6bytes.drop 4) = .ok (c4raw, 28) := by
    decide
  have hdec : decodeFileRaw trivCodecs [] c4raw = .ok c4file := by decide
  have hcdh : parseCDHeader "utf-8" (((c6bytes.drop 4).drop 28).drop 4) =
      .ok (c6header, 43) := by decide
  have hend : parseCDEnd "utf-8"
      (((((c6bytes.drop 4).drop 28).drop 4).drop 43).drop 4) =
      .ok c4eocd := by decide
  unfold scanArchive
  rw [if_pos (by decide : c6bytes.take 4 = [80, 75, 3, 4]), hparse]
  simp only []
  rw [hdec]
  simp only []
  rw [scanLoop]
  rw [dif_neg (by decide),
    dif_pos (by decide : ((c6bytes.drop 4).drop 28).take 4 =
      [80, 75, 1, 2]), hcdh]
  simp only []
  rw [scanLoop]
  rw [dif_neg (by decide), dif_neg (by decide),
    dif_pos (by decide : ((((c6bytes.drop 4).drop 28).drop 4).drop 43).take 4 =
      [80, 75, 5, 6]), hend]
  rfl

/-- Witness for C6: the archive `c6bytes` has one entry with a matching
header and consistent CRCs, and `open` accepts it. -/
theorem open_verifies_crc_witness :
    openArchive trivCodecs [] "utf-8" c6bytes =
      .ok (commentPatch [c4file] [c6header]) [c6header] c4eocd :=
  (open_verifies_crc trivCodecs [] "utf-8" c6bytes [c4file] [c6header]
    c4eocd c6_scan (by decide)).1.mpr (by decide)

/-- The claim's reading of the version computation: the maximum
applicable value among base 10; 20 when ZipCrypto-encrypted, Deflate,
or under a subfolder; 21 for Deflate64; 25 for PKWARE Imploding; 45
when the uncompressed size requires ZIP64; 46 for BZIP2. -/
def maxApplicable (c : Compression) (root : Bool) (e : Encryption)
    (u : Nat) : Nat :=
  List.foldl max 10
    ((if c = .deflate ∨ root = false ∨ e = .zipCrypto then [20] else []) ++
      (if c = .deflate64 then [21] else []) ++
      (if c = .pkwareImploding then [25] else []) ++
      (if u ≥ INT32_MAX then [45] else []) ++
      (if c = .bzip2 then [46] else []))

/-- C9.  The `version_needed_to_extract` chain of `create_file` runs
its overwrites in ascending order on mutually exclusive compression
labels, so the stored value is exactly the maximum applicable value of
the claim; and both records staged by `create_file` carry it. -/
theorem version_needed_is_max :
    (∀ (c : Compression) (root : Bool) (e : Encryption) (u : Nat),
      versionNeeded c root e u = maxApplicable c root e u) ∧
    (∀ (z : NewZipFile) (env : Env) (cx : Codecs) (fn : String)
      (data : Bytes) (root : Bool) (comp : Compression) (lvl : Level)
      (enc comm : String) (f : FileRaw) (h : CDHeader),
      createFileStage z env cx fn data root comp lvl enc comm = .ok (f, h) →
      f.version_needed_to_exctract =
        maxApplicable comp root z.encryption data.length ∧
      h.version_needed_to_exctract =
        maxApplicable comp root z.encryption data.length) := by
  have part1 : ∀ (c : Compression) (root : Bool) (e : Encryption) (u : Nat),
      versionNeeded c root e u = maxApplicable c root e u := by
    intro c root e u
    by_cases hu : INT32_MAX ≤ u <;>
      cases c <;> cases root <;> cases e <;>
      simp [versionNeeded, maxApplicable, hu]
  refine ⟨part1, ?_⟩
  intro z env cx fn data root comp lvl enc comm f h hok
  cases hlast : fn.data.getLast? with
  | none =>
    rw [createFileStage, hlast] at hok
    exact absurd hok (by simp)
  | some c =>
    rw [createFileStage, hlast] at hok
    simp only [Except.ok.injEq, Prod.mk.injEq] at hok
    obtain ⟨hf, hh⟩ := hok
    subst hf
    subst hh
    exact ⟨part1 comp root z.encryption data.length,
      part1 comp root z.encryption data.length⟩

/-- The entry staged by `create_file('a', b'x')` in `oneEntryState`. -/
def c9file : FileRaw :=
  ⟨10, [false, false, false, false, false, false, false, false, false,
    false, false, true, false, false, false, false], 0, [214, 99],
    [177, 88], 2363233923, 1, 1, 1, 0, "a", [], [120]⟩

/-- The header staged by `create_file('a', b'x')` in `oneEntryState`. -/
def c9cdh : CDHeader :=
  ⟨63, 3, 10, [false, false, false, false, false, false, false, false,
    false, false, false, true, false, false, false, false], 0,
    [214, 99], [177, 88], 2363233923, 1, 1, 1, 0, 0, 0, [0, 0],
    [32, 0, 0, 0], 0, "a", [], ""⟩

/-- Witness for C9: the staged-entry clause at a concrete
`create_file` staging. -/
theorem version_needed_is_max_witness :
    c9file.version_needed_to_exctract =
      maxApplicable .stored true Encryption.unencrypted ([120] : Bytes).length ∧
    c9cdh.version_needed_to_exctract =
      maxApplicable .stored true Encryption.unencrypted ([120] : Bytes).length :=
  version_needed_is_max.2 (NewZipFile.new [] "utf-8" .unencrypted)
    demoEnv trivCodecs "a" [120] true .stored .normal "utf-8" ""
    c9file c9cdh (by decide)

/-- Codecs whose deflate compressor shrinks everything to zero bytes
(a legitimate external codec behaviour: real DEFLATE compresses a
4 GiB run of zeros far below 4 GiB). -/
def shrinkCodecs : Codecs :=
  { trivCodecs with deflateCompress := fun _ _ => [] }

/-- A payload of `2 ^ 32` zero bytes. -/
def hugeData : Bytes :=
  List.replicate (2 ^ 32) 0

/-- The staged entry's extra field, when staging succeeded. -/
def stagedExtraField (r : Except PyErr (FileRaw × CDHeader)) : Option Bytes :=
  r.toOption.map fun p => p.1.extra_field

/-- The staged entry's stored uncompressed size, when staging
succeeded. -/
def stagedUncompressedSize (r : Except PyErr (FileRaw × CDHeader)) :
    Option Nat :=
  r.toOption.map fun p => p.1.uncompressed_size

/-- C8 counterexample.  A `create_file` staging whose uncompressed size
is `2 ^ 32 >= 0xFFFFFFFF` but whose compressed size is below the
threshold gets no ZIP64 extra record and keeps the overlarge value in
the 32-bit size field, contradicting the claim's
"compressed or uncompressed size" trigger. -/
theorem zip64_trigger_counterexample :
    stagedExtraField (createFileStage (NewZipFile.new [] "utf-8" .unencrypted)
      demoEnv shrinkCodecs "a" hugeData true .deflate .normal "utf-8" "") =
      some [] ∧
    stagedUncompressedSize (createFileStage
      (NewZipFile.new [] "utf-8" .unencrypted)
      demoEnv shrinkCodecs "a" hugeData true .deflate .normal "utf-8" "") =
      some (2 ^ 32) ∧
    INT32_MAX ≤ 2 ^ 32 ∧ 2 ^ 32 ≠ INT32_MAX := by
  have hga : ("a" : String).data.getLast? = some 'a' := rfl
  refine ⟨rfl, ?_, by norm_num [INT32_MAX], by norm_num [INT32_MAX]⟩
  simp only [stagedUncompressedSize, createFileStage, hga, compress,
    shrinkCodecs, trivCodecs]
  norm_num [INT32_MAX, hugeData, Except.toOption, NewZipFile.new,
    Compression.methodId]

/-- C8 (amended).  `create_file` inserts the 0x0001 ZIP64 extra record
(holding the true 64-bit sizes) and writes `0xFFFFFFFF` in both 32-bit
size fields of the entry and its central directory header exactly when
the *compressed* size (the staged payload length, after compression and
optional encryption) is `>= 0xFFFFFFFF`; below the threshold the entry
stays entirely in 32-bit encoding with its true sizes; and `save`
patches the ZIP64 record's offset slot (bytes 20-28) with the entry's
actual local-header offset. -/
theorem zip64_promotion (z : NewZipFile) (env : Env) (cx : Codecs)
    (fn : String) (data : Bytes) (root : Bool) (comp : Compression)
    (lvl : Level) (enc comm : String) (f : FileRaw) (h : CDHeader)
    (hok : createFileStage z env cx fn data root comp lvl enc comm =
      .ok (f, h)) :
    (INT32_MAX ≤ f.contents.length →
      f.compressed_size = INT32_MAX ∧ f.uncompressed_size = INT32_MAX ∧
      h.compressed_size = INT32_MAX ∧ h.uncompressed_size = INT32_MAX ∧
      f.extra_field = [1, 0, 28, 0] ++ toBytesLE 8 data.length ++
        toBytesLE 8 f.contents.length ++ List.replicate 8 0 ++
        List.replicate 4 0) ∧
    (f.contents.length < INT32_MAX →
      f.extra_field = [] ∧ f.compressed_size = f.contents.length ∧
      f.uncompressed_size = data.length ∧
      h.compressed_size = f.contents.length ∧
      h.uncompressed_size = data.length) ∧
    (∀ (k : String) (f' : FileRaw) (cd : List (String × CDHeader))
      (off : Nat), INT32_MAX ≤ f'.compressed_size →
      f'.extra_field.take 2 = [1, 0] →
      (saveEntry k f' cd off).1.extra_field =
        savePatchExtra off f'.extra_field) := by
  refine ⟨?_, ?_, ?_⟩
  · intro hbig
    cases hlast : fn.data.getLast? with
    | none =>
      rw [createFileStage, hlast] at hok
      exact absurd hok (by simp)
    | some c =>
      rw [createFileStage, hlast] at hok
      simp only [Except.ok.injEq, Prod.mk.injEq] at hok
      obtain ⟨hf, hh⟩ := hok
      subst hf
      subst hh
      simp only [ge_iff_le] at hbig ⊢
      simp_all
  · intro hsmall
    cases hlast : fn.data.getLast? with
    | none =>
      rw [createFileStage, hlast] at hok
      exact absurd hok (by simp)
    | some c =>
      rw [createFileStage, hlast] at hok
      simp only [Except.ok.injEq, Prod.mk.injEq] at hok
      obtain ⟨hf, hh⟩ := hok
      subst hf
      subst hh
      simp only [ge_iff_le] at hsmall ⊢
      simp_all [Nat.not_le.mpr]
  · intro k f' cd off hbig htag
    simp [saveEntry, if_pos (by simpa using hbig), htag]

/-- A concrete ZIP64-promoted staged entry (sizes clamped to
`0xFFFFFFFF`, a 0x0001 extra record with true sizes 6 and 5). -/
def c8promoted : FileRaw :=
  ⟨45, List.replicate 16 false, 0, [0, 0], [0, 0], 0, INT32_MAX,
    INT32_MAX, 1, 32, "a",
    [1, 0, 28, 0] ++ toBytesLE 8 5 ++ toBytesLE 8 6 ++
      List.replicate 8 0 ++ List.replicate 4 0, []⟩

/-- Witness for C8: the 32-bit clause at the concrete staging of
`create_file('a', b'x')`, and the offset-patch clause at a concrete
promoted entry and offset 7. -/
theorem zip64_promotion_witness :
    (c9file.extra_field = [] ∧
      c9file.compressed_size = c9file.contents.length ∧
      c9file.uncompressed_size = ([120] : Bytes).length ∧
      c9cdh.compressed_size = c9file.contents.length ∧
      c9cdh.uncompressed_size = ([120] : Bytes).length) ∧
    (saveEntry "a" c8promoted [] 7).1.extra_field =
      savePatchExtra 7 c8promoted.extra_field :=
  ⟨(zip64_promotion (NewZipFile.new [] "utf-8" .unencrypted) demoEnv
      trivCodecs "a" [120] true .stored .normal "utf-8" "" c9file c9cdh
      (by decide)).2.1 (by decide),
    (zip64_promotion (NewZipFile.new [] "utf-8" .unencrypted) demoEnv
      trivCodecs "a" [120] true .stored .normal "utf-8" "" c9file c9cdh
      (by decide)).2.2 "a" c8promoted [] 7 (by decide) (by decide)⟩

/-! ## C10: the staged tables stay equal-keyed and sorted -/

/-- Keys of a staged table, in iteration order. -/
def tableKeys (l : List (String × α)) : List String :=
  l.map Prod.fst

/-- Effect of a Python dict update on the key sequence: unchanged when
the key exists, appended otherwise. -/
def keyUpdate (k : String) (ks : List String) : List String :=
  if k ∈ ks then ks else ks ++ [k]

/-- The C10 invariant: both staged tables list the same keys, strictly
sorted in the lexicographic (code-point) string order Python's `sorted`
uses. -/
def validState (z : NewZipFile) : Prop :=
  tableKeys z.files = tableKeys z.cd_headers ∧
  List.Sorted (fun a b => strLT a b = true) (tableKeys z.files)

theorem charListLE_total (a b : List Char) :
    charListLE a b = true ∨ charListLE b a = true := by
  induction a generalizing b with
  | nil => left; rfl
  | cons c cs ih =>
    cases b with
    | nil => right; rfl
    | cons d ds =>
      rcases lt_trichotomy c d with hlt | heq | hgt
      · left; simp [charListLE, hlt]
      · subst heq
        simp only [charListLE, lt_irrefl, if_false]
        exact ih ds
      · right; simp [charListLE, hgt]

theorem charListLE_trans (a b c : List Char) (hab : charListLE a b = true)
    (hbc : charListLE b c = true) : charListLE a c = true := by
  induction a generalizing b c with
  | nil => rfl
  | cons x xs ih =>
    cases b with
    | nil => simp [charListLE] at hab
    | cons y ys =>
      cases c with
      | nil => simp [charListLE] at hbc
      | cons z zs =>
        simp only [charListLE] at hab hbc ⊢
        rcases lt_trichotomy x y with hxy | hxy | hxy
        · rcases lt_trichotomy y z with hyz | hyz | hyz
          · simp [lt_trans hxy hyz]
          · subst hyz; simp [hxy]
          · rcases lt_trichotomy x z with hxz | hxz | hxz
            · simp [hxz]
            · subst hxz; simp [hyz, asymm hyz] at hbc
            · simp [hyz, asymm hyz] at hbc
        · subst hxy
          rcases lt_trichotomy x z with hxz | hxz | hxz
          · simp [hxz]
          · subst hxz
            simp only [lt_irrefl, if_false] at hab hbc ⊢
            exact ih ys zs hab hbc
          · simp [hxz, asymm hxz] at hbc
        · simp [hxy, asymm hxy] at hab
  
theorem charListLE_antisymm (a b : List Char)
    (hab : charListLE a b = true) (hba : charListLE b a = true) :
    a = b := by
  induction a generalizing b with
  | nil =>
    cases b with
    | nil => rfl
    | cons d ds => simp [charListLE] at hba
  | cons c cs ih =>
    cases b with
    | nil => simp [charListLE] at hab
    | cons d ds =>
      rcases lt_trichotomy c d with hlt | heq | hgt
      · simp [charListLE, hlt, asymm hlt] at hba
      · subst heq
        simp only [charListLE, lt_irrefl, if_false] at hab hba
        rw [ih ds hab hba]
      · simp [charListLE, hgt, asymm hgt] at hab

theorem charListLT_iff (a b : List Char) :
    charListLT a b = true ↔ charListLE a b = true ∧ a ≠ b := by
  induction a generalizing b with
  | nil =>
    cases b with
    | nil => simp [charListLT, charListLE]
    | cons d ds => simp [charListLT, charListLE]
  | cons c cs ih =>
    cases b with
    | nil => simp [charListLT, charListLE]
    | cons d ds =>
      rcases lt_trichotomy c d with hlt | heq | hgt
      · simp [charListLT, charListLE, hlt, ne_of_lt hlt]
      · subst heq
        simp only [charListLT, charListLE, lt_irrefl, if_false]
        rw [ih ds]
        simp
      · simp [charListLT, charListLE, hgt, asymm hgt]

theorem strLE_total (a b : String) : strLE a b = true ∨ strLE b a = true :=
  charListLE_total a.data b.data

theorem strLE_trans (a b c : String) (hab : strLE a b = true)
    (hbc : strLE b c = true) : strLE a c = true :=
  charListLE_trans a.data b.data c.data hab hbc

theorem strLE_antisymm (a b : String) (hab : strLE a b = true)
    (hba : strLE b a = true) : a = b := by
  cases a with
  | mk da =>
    cases b with
    | mk db => exact congrArg String.mk (charListLE_antisymm da db hab hba)

theorem strLT_iff (a b : String) :
    strLT a b = true ↔ strLE a b = true ∧ a ≠ b := by
  unfold strLT strLE
  rw [charListLT_iff]
  constructor
  · rintro ⟨hle, hne⟩
    exact ⟨hle, fun hc => hne (by rw [hc])⟩
  · rintro ⟨hle, hne⟩
    refine ⟨hle, fun hc => hne ?_⟩
    cases a with
    | mk da =>
      cases b with
      | mk db => exact congrArg String.mk hc

instance strLE_isTotal : IsTotal String (fun a b => strLE a b = true) :=
  ⟨strLE_total⟩

instance strLE_isTrans : IsTrans String (fun a b => strLE a b = true) :=
  ⟨strLE_trans⟩

instance keyLE_isTotal {α : Type} :
    IsTotal (String × α) (fun a b => strLE a.1 b.1 = true) :=
  ⟨fun a b => strLE_total a.1 b.1⟩

instance keyLE_isTrans {α : Type} :
    IsTrans (String × α) (fun a b => strLE a.1 b.1 = true) :=
  ⟨fun a b c => strLE_trans a.1 b.1 c.1⟩

theorem tableKeys_sortByKey (l : List (String × α)) :
    tableKeys (sortByKey l) =
      List.insertionSort (fun a b => strLE a b = true) (tableKeys l) :=
  List.map_insertionSort _ _ Prod.fst l fun _ _ _ _ => Iff.rfl

theorem keyUpdate_cons (k k' : String) (hk : k' ≠ k)
    (ks : List String) :
    k' :: keyUpdate k ks = keyUpdate k (k' :: ks) := by
  unfold keyUpdate
  by_cases hmem : k ∈ ks
  · rw [if_pos hmem, if_pos (List.mem_cons_of_mem _ hmem)]
  · rw [if_neg hmem,
      if_neg (fun hc => (List.mem_cons.mp hc).elim
        (fun h => hk h.symm) hmem)]
    simp

theorem tableKeys_pyDictUpdate (k : String) (v : α)
    (l : List (String × α)) :
    tableKeys (pyDictUpdate k v l) = keyUpdate k (tableKeys l) := by
  induction l with
  | nil => simp [pyDictUpdate, tableKeys, keyUpdate]
  | cons p rest ih =>
    obtain ⟨k', v'⟩ := p
    by_cases hk : k' = k
    · subst hk
      simp [pyDictUpdate, tableKeys, keyUpdate]
    · simp only [pyDictUpdate, if_neg hk, tableKeys, List.map_cons]
      rw [show List.map Prod.fst (pyDictUpdate k v rest) =
        tableKeys (pyDictUpdate k v rest) from rfl, ih]
      exact keyUpdate_cons k k' hk (tableKeys rest)

theorem keyUpdate_nodup (k : String) (ks : List String)
    (hn : ks.Nodup) : (keyUpdate k ks).Nodup := by
  unfold keyUpdate
  by_cases hmem : k ∈ ks
  · simpa [hmem] using hn
  · simp [hmem, List.nodup_append, hn]

theorem sorted_strLT_of_le_nodup (l : List String)
    (hs : List.Sorted (fun a b => strLE a b = true) l) (hn : l.Nodup) :
    List.Sorted (fun a b => strLT a b = true) l :=
  (hs.and hn).imp fun hab => (strLT_iff _ _).mpr hab

/-- The shared-tail invariant step: `insertEntry` keeps both tables
equal-keyed and strictly sorted. -/
theorem insertEntry_valid (z : NewZipFile) (f : FileRaw) (h : CDHeader)
    (hv : validState z) : validState (insertEntry z f h) := by
  obtain ⟨hkeys, hsorted⟩ := hv
  have hnodup : (tableKeys z.files).Nodup :=
    hsorted.imp fun hab => ((strLT_iff _ _).mp hab).2
  have hfiles : tableKeys (insertEntry z f h).files =
      List.insertionSort (fun a b => strLE a b = true)
        (keyUpdate f.filename (tableKeys z.files)) := by
    simp only [insertEntry]
    rw [tableKeys_sortByKey, tableKeys_pyDictUpdate]
  have hcd : tableKeys (insertEntry z f h).cd_headers =
      List.insertionSort (fun a b => strLE a b = true)
        (keyUpdate f.filename (tableKeys z.cd_headers)) := by
    simp only [insertEntry]
    rw [tableKeys_sortByKey, tableKeys_pyDictUpdate]
  constructor
  · rw [hfiles, hcd, hkeys]
  · rw [hfiles]
    apply sorted_strLT_of_le_nodup
    · exact List.sorted_insertionSort _ _
    · exact ((List.perm_insertionSort _ _).nodup_iff).mpr
        (keyUpdate_nodup _ _ hnodup)

theorem createFileAtRoot_valid (z : NewZipFile) (env : Env) (cx : Codecs)
    (fn : String) (fd : FileData) (comp : Compression) (lvl : Level)
    (enc comm : String) (z' : NewZipFile)
    (hok : createFileAtRoot z env cx fn fd comp lvl enc comm = .ok z')
    (hv : validState z) : validState z' := by
  unfold createFileAtRoot at hok
  split at hok
  · exact absurd hok (by simp)
  · cases fd with
    | str t =>
      simp only [] at hok
      cases hstage : createFileStage z env cx fn (encodeText enc t) true
          comp lvl enc comm with
      | error e =>
        rw [hstage] at hok
        exact absurd hok (by simp)
      | ok fc =>
        rw [hstage] at hok
        obtain ⟨file, cdh⟩ := fc
        simp only [Except.ok.injEq] at hok
        exact hok ▸ insertEntry_valid _ _ _ hv
    | bytes b =>
      simp only [] at hok
      cases hstage : createFileStage z env cx fn b true comp lvl enc
          comm with
      | error e =>
        rw [hstage] at hok
        exact absurd hok (by simp)
      | ok fc =>
        rw [hstage] at hok
        obtain ⟨file, cdh⟩ := fc
        simp only [Except.ok.injEq] at hok
        exact hok ▸ insertEntry_valid _ _ _ hv

theorem createFolderLoop_valid (env : Env) (cx : Codecs) (enc : String)
    (keys : List String) (z z' : NewZipFile)
    (hok : createFolderLoop env cx enc z keys = .ok z')
    (hv : validState z) : validState z' := by
  induction keys generalizing z with
  | nil =>
    simp only [createFolderLoop, Except.ok.injEq] at hok
    exact hok ▸ hv
  | cons key rest ih =>
    simp only [createFolderLoop] at hok
    split at hok
    · exact absurd hok (by simp)
    · rename_i z1 heq
      exact ih z1 hok (createFileAtRoot_valid _ _ _ _ _ _ _ _ _ _ heq hv)

theorem createFolderBody_valid (z : NewZipFile) (env : Env) (cx : Codecs)
    (fp enc : String) (p : String) (z' : NewZipFile)
    (hok : createFolderBody z env cx fp enc = .ok (p, z'))
    (hv : validState z) : validState z' := by
  unfold createFolderBody at hok
  split at hok
  · simp only [Except.ok.injEq, Prod.mk.injEq] at hok
    exact hok.2 ▸ hv
  · simp only [] at hok
    cases hloop : createFolderLoop env cx enc z
        (folderPrefixKeys ((pySplitOn fp '\\').drop 1)) with
    | error e =>
      rw [hloop] at hok
      exact absurd hok (by simp)
    | ok z1 =>
      rw [hloop] at hok
      simp only [Except.ok.injEq, Prod.mk.injEq] at hok
      exact hok.2 ▸ createFolderLoop_valid _ _ _ _ _ _ hloop hv

theorem createFolder_valid (z : NewZipFile) (env : Env) (cx : Codecs)
    (fn fp enc : String) (p : String) (z' : NewZipFile)
    (hok : createFolder z env cx fn fp enc = .ok (p, z'))
    (hv : validState z) : validState z' := by
  unfold createFolder at hok
  split at hok
  · exact absurd hok (by simp)
  · split at hok
    · split at hok
      · exact absurd hok (by simp)
      · split at hok
        · exact absurd hok (by simp)
        · exact createFolderBody_valid _ _ _ _ _ _ _ hok hv
    · split at hok
      · exact absurd hok (by simp)
      · split at hok
        · exact createFolderBody_valid _ _ _ _ _ _ _ hok hv
        · exact createFolderBody_valid _ _ _ _ _ _ _ hok hv

theorem insertAfterStage_valid (z z' : NewZipFile)
    (r : Except PyErr (FileRaw × CDHeader))
    (hok : (match r with
      | .error e => (.error e : Except PyErr NewZipFile)
      | .ok (file, cdh) => .ok (insertEntry z file cdh)) = .ok z')
    (hv : validState z) : validState z' := by
  cases r with
  | error e => exact absurd hok (by simp)
  | ok fc =>
    obtain ⟨file, cdh⟩ := fc
    simp only [Except.ok.injEq] at hok
    exact hok ▸ insertEntry_valid _ _ _ hv

/-- C10.  After every successful `create_file` or `add_file` call on an
archive whose staged tables are equal-keyed and sorted, the tables are
again equal-keyed, and their shared iteration order is strictly sorted
in the lexicographic string order — so the entry order `save` uses is
determined by the key set alone, not by the order of insertion. -/
theorem staged_tables_sorted :
    (∀ (z : NewZipFile) (env : Env) (cx : Codecs) (fn : String)
      (fd : FileData) (fp : String) (comp : Compression) (lvl : Level)
      (enc comm : String) (z' : NewZipFile),
      createFile z env cx fn fd fp comp lvl enc comm = .ok z' →
      validState z → validState z') ∧
    (∀ (z : NewZipFile) (env : Env) (cx : Codecs) (fn : String)
      (fsExists fsIsDir : Bool) (fsData hExtraField : Bytes)
      (statModeBits : Nat) (fp : String) (comp : Compression)
      (lvl : Level) (enc comm : String) (z' : NewZipFile),
      addFile z env cx fn fsExists fsIsDir fsData hExtraField
        statModeBits fp comp lvl enc comm = .ok z' →
      validState z → validState z') := by
  constructor
  · intro z env cx fn fd fp comp lvl enc comm z' hok hv
    unfold createFile at hok
    split at hok
    · exact absurd hok (by simp)
    · simp only [] at hok
      split at hok
      · exact insertAfterStage_valid _ _ _ hok hv
      · split at hok
        · exact absurd hok (by simp)
        · rename_i pz heq
          obtain ⟨p, z1⟩ := pz
          exact insertAfterStage_valid _ _ _ hok
            (createFolder_valid _ _ _ _ _ _ _ _ heq hv)
  · intro z env cx fn fsExists fsIsDir fsData hExtraField statModeBits
      fp comp lvl enc comm z' hok hv
    unfold addFile at hok
    split at hok
    · exact absurd hok (by simp)
    · split at hok
      · exact absurd hok (by simp)
      · simp only [] at hok
        split at hok
        · simp only [Except.ok.injEq] at hok
          exact hok ▸ insertEntry_valid _ _ _ hv
        · split at hok
          · exact absurd hok (by simp)
          · rename_i pz heq
            obtain ⟨p, z1⟩ := pz
            simp only [Except.ok.injEq] at hok
            exact hok ▸ insertEntry_valid _ _ _
              (createFolder_valid _ _ _ _ _ _ _ _ heq hv)

/-- One entry staged through `add_file('b', <file of b'y'>)`. -/
def addedState : NewZipFile :=
  fromOk (addFile (NewZipFile.new [] "utf-8" .unencrypted) demoEnv
    trivCodecs "b" true false [121] [] 0 "." .stored .normal "utf-8" "")

/-- Witness for C10: both clauses applied to a fresh archive (whose
tables are trivially valid) at concrete `create_file` and `add_file`
calls. -/
theorem staged_tables_sorted_witness :
    validState oneEntryState ∧ validState addedState :=
  ⟨staged_tables_sorted.1 (NewZipFile.new [] "utf-8" .unencrypted)
      demoEnv trivCodecs "a" (.bytes [120]) "." .stored .normal "utf-8"
      "" oneEntryState (by decide) ⟨rfl, List.sorted_nil⟩,
    staged_tables_sorted.2 (NewZipFile.new [] "utf-8" .unencrypted)
      demoEnv trivCodecs "b" true false [121] [] 0 "." .stored .normal
      "utf-8" "" addedState (by decide) ⟨rfl, List.sorted_nil⟩⟩

end Zippy
